import Mathlib

/-!
Verification of the git-migrator backend (src/backend/main.py) against its
natural-language specification.  The Python source is shallowly embedded:
pure string manipulation becomes Lean functions on `String` / `List Char`,
fallible code returns `Except String`, and the network / git subprocess
boundary is modelled by explicit oracles.  Machine-level details that the
claims do not touch (process scheduling, the HTTP server, the filesystem)
are not modelled.
-/

namespace GitMigrator

/-! ## Python string primitives

The backend manipulates URLs and tokens with `str.replace`, `str.strip`,
`str.split`, and `urllib.parse.quote`.  These are embedded below.  All
definitions are structurally recursive (fuelled where Python iterates over
shrinking strings) so that concrete instances evaluate inside the kernel.
-/

/-- Fuelled core of Python `str.replace`: scan left to right, replace each
non-overlapping occurrence of `pat` by `rep`, resuming the scan after the
replaced occurrence.  `fuel` is at least the length of the scanned list. -/
def replaceAux (pat rep : List Char) : Nat → List Char → List Char
  | 0, s => s
  | _ + 1, [] => []
  | fuel + 1, c :: rest =>
    if pat ≠ [] ∧ pat.isPrefixOf (c :: rest) then
      rep ++ replaceAux pat rep fuel ((c :: rest).drop pat.length)
    else
      c :: replaceAux pat rep fuel rest

/-- Python `s.replace(pat, rep)` on character lists. -/
def pyReplaceL (s pat rep : List Char) : List Char :=
  replaceAux pat rep s.length s

/-- Python `s.replace(pat, rep)`. -/
def pyReplace (s pat rep : String) : String :=
  ⟨pyReplaceL s.data pat.data rep.data⟩

/-- Python `pat in s` (substring containment) on character lists. -/
def containsSubAux (t : List Char) : List Char → Bool
  | [] => t.isPrefixOf []
  | c :: rest => t.isPrefixOf (c :: rest) || containsSubAux t rest

/-- Python `pat in s` (substring containment). -/
def pyContains (s pat : String) : Bool :=
  containsSubAux pat.data s.data

/-- Python `s.startswith(pre)`. -/
def pyStartsWith (s t : String) : Bool :=
  t.data.isPrefixOf s.data

/-- ASCII whitespace recognised by Python `str.strip()` (the repository
URLs and branch names the service handles are ASCII). -/
def isPySpace (c : Char) : Bool :=
  c = ' ' || c = '\t' || c = '\n' || c = '\r' || c = '\x0b' || c = '\x0c'

/-- Python `s.strip()` (whitespace on both ends). -/
def pyStrip (s : String) : String :=
  ⟨((s.data.dropWhile isPySpace).reverse.dropWhile isPySpace).reverse⟩

/-- Python `s.strip(c)` for a single strip character. -/
def stripCharBoth (c : Char) (s : List Char) : List Char :=
  ((s.dropWhile (· = c)).reverse.dropWhile (· = c)).reverse

/-- Helper for Python `s.split(sep)` with a single-character separator:
split at every occurrence, keeping empty pieces. -/
def pySplitCharAux (sep : Char) : List Char → List Char → List (List Char)
  | [], acc => [acc.reverse]
  | c :: rest, acc =>
    if c = sep then acc.reverse :: pySplitCharAux sep rest []
    else pySplitCharAux sep rest (c :: acc)

/-- Python `s.split(sep)` for a single-character separator
(`"".split(sep) = [""]`, empty pieces kept). -/
def pySplit (s : String) (sep : Char) : List String :=
  (pySplitCharAux sep s.data []).map (fun l => ⟨l⟩)

/-- Python `s.lower()` (ASCII; hostnames and provider names are ASCII). -/
def pyLower (s : String) : String :=
  ⟨s.data.map Char.toLower⟩

/-- Python `s[:n]` (slicing is by code points, like `List.take`). -/
def pyTake (s : String) (n : Nat) : String :=
  ⟨s.data.take n⟩

/-- Python `token.split(":", 1)`: the part before the first colon and the
part after it (callers only use this when a colon is present). -/
def splitFirstColonAux : List Char → List Char × List Char
  | [] => ([], [])
  | c :: rest =>
    if c = ':' then ([], rest)
    else
      let p := splitFirstColonAux rest
      (c :: p.1, p.2)

/-- Split a list at the first occurrence of a substring: returns the part
before the occurrence and the part after it, or `none` if absent. -/
def splitFirstSub (pat : List Char) : List Char → Option (List Char × List Char)
  | [] => if pat.isPrefixOf ([] : List Char) then some ([], []) else none
  | c :: rest =>
    if pat.isPrefixOf (c :: rest) then some ([], (c :: rest).drop pat.length)
    else
      match splitFirstSub pat rest with
      | some (a, b) => some (c :: a, b)
      | none => none

/-- Does `t` occur starting at a position strictly inside the `a`-region of
`a ++ t ++ b`?  Used to state that a secret occurs only at its intended
position inside a shaped URL. -/
def earlyOccur (t : List Char) : List Char → List Char → Bool
  | [], _ => false
  | c :: a, b => t.isPrefixOf (c :: (a ++ t ++ b)) || earlyOccur t a b

/-! ## `urllib.parse.quote` with `safe=""` -/

/-- Characters `urllib.parse.quote` never escapes (ASCII letters, digits,
and `_.-~`); with `safe=""` nothing else is spared. -/
def isUrlSafeChar (c : Char) : Bool :=
  c.isAlphanum || c = '_' || c = '.' || c = '-' || c = '~'

/-- Uppercase hexadecimal digit for `n < 16`. -/
def hexDigit (n : Nat) : Char :=
  if n < 10 then Char.ofNat (48 + n) else Char.ofNat (55 + n)

/-- Percent-escape of a single byte, e.g. `%2F`. -/
def pctByte (b : Nat) : List Char :=
  ['%', hexDigit (b / 16), hexDigit (b % 16)]

/-- UTF-8 bytes of a Unicode code point (as `Nat`s below 256). -/
def utf8Bytes (n : Nat) : List Nat :=
  if n < 0x80 then [n]
  else if n < 0x800 then [0xC0 + n / 64, 0x80 + n % 64]
  else if n < 0x10000 then [0xE0 + n / 4096, 0x80 + (n / 64) % 64, 0x80 + n % 64]
  else [0xF0 + n / 262144, 0x80 + (n / 4096) % 64, 0x80 + (n / 64) % 64, 0x80 + n % 64]

/-- `urllib.parse.quote` on one character. -/
def quoteChar (c : Char) : List Char :=
  if isUrlSafeChar c then [c] else (utf8Bytes c.toNat).flatMap pctByte

/-- `urllib.parse.quote(s, safe="")`. -/
def quote (s : String) : String :=
  ⟨s.data.flatMap quoteChar⟩

/-! ## URL & credential shaper (`get_auth_url`, `_redact_sensitive`) -/

/-- The scheme-stripping step of `get_auth_url`:
`url.replace("https://", "").replace("http://", "")`. -/
def cleanTransportUrl (url : String) : String :=
  pyReplace (pyReplace url "https://" "") "http://" ""

/-- `get_auth_url(url, token, provider)` from src/backend/main.py. -/
def get_auth_url (url token provider : String) : String :=
  let clean_url := cleanTransportUrl url
  if provider = "bitbucket" ∧ token.data.contains ':' then
    let pieces := splitFirstColonAux token.data
    let encoded_username := quote ⟨pieces.1⟩
    let encoded_password := quote ⟨pieces.2⟩
    "https://" ++ encoded_username ++ ":" ++ encoded_password ++ "@" ++ clean_url
  else if provider = "gitlab" then
    "https://oauth2:" ++ quote token ++ "@" ++ clean_url
  else
    "https://" ++ quote token ++ "@" ++ clean_url

/-- `_redact_sensitive(text, req)`: replace every occurrence of each
non-empty secret by `***` (the request carries the source and destination
tokens; here the secrets are passed as a list). -/
def redact_sensitive (text : String) (secrets : List String) : String :=
  secrets.foldl
    (fun scrubbed secret => if secret ≠ "" then pyReplace scrubbed secret "***" else scrubbed)
    text

/-! ## `MigrationActions.normalize_branches` -/

/-- The validator loop of `normalize_branches`: trim each entry, skip
empties and entries already seen, keep first-occurrence order.  `seen` is
the membership set accumulated so far. -/
def normalizeBranchesLoop : List String → List String → List String
  | [], _ => []
  | item :: rest, seen =>
    let branch := pyStrip item
    if branch = "" ∨ seen.contains branch then normalizeBranchesLoop rest seen
    else branch :: normalizeBranchesLoop rest (branch :: seen)

/-- `MigrationActions.normalize_branches` on a list of strings (non-string
entries, which the validator silently drops, are outside this model). -/
def normalize_branches (value : List String) : List String :=
  normalizeBranchesLoop value []

/-- Keep the first occurrence of every element, drop later duplicates.
This is the specification-side description of de-duplication. -/
def dedupFirstAux : List String → List String → List String
  | [], _ => []
  | x :: xs, seen =>
    if seen.contains x then dedupFirstAux xs seen
    else x :: dedupFirstAux xs (x :: seen)

/-- De-duplicate keeping first occurrences. -/
def dedupFirst (l : List String) : List String :=
  dedupFirstAux l []

/-! ## URL parsing (`_normalize_repo_url`, `_repo_context`) -/

/-- The `netloc` / `path` components of `urllib.parse.urlparse`, restricted
to `scheme://netloc/path` URLs (the service's repository URLs carry no
query, fragment or params). -/
structure ParsedUrl where
  netloc : String
  path : String
deriving DecidableEq, Repr

/-- `_normalize_repo_url(url)`: strip whitespace, prepend `https://` when no
scheme separator is present, parse, and fail when the network location is
empty. -/
def normalize_repo_url (url : String) : Except String ParsedUrl :=
  let normalized := pyStrip url
  if normalized = "" then .error "Repository URL is required"
  else
    let normalized :=
      if pyContains normalized "://" then normalized else "https://" ++ normalized
    match splitFirstSub "://".data normalized.data with
    | some (_, rest) =>
      let netloc : List Char := rest.takeWhile (· ≠ '/')
      let path : List Char := rest.dropWhile (· ≠ '/')
      if netloc = [] then .error ("Invalid repository URL: " ++ url)
      else .ok ⟨⟨netloc⟩, ⟨path⟩⟩
    | none => .error ("Invalid repository URL: " ++ url)

/-- `RepoContext` from src/backend/main.py. -/
structure RepoContext where
  provider : String
  token : String
  repo_url : String
  host : String
  path : String
deriving DecidableEq, Repr

/-- `_repo_context(provider, token, repo_url)`: parse the URL, strip
slashes around the path and a trailing `.git`. -/
def repo_context (provider token repo_url : String) : Except String RepoContext :=
  match normalize_repo_url repo_url with
  | .error e => .error e
  | .ok parsed =>
    let path0 := stripCharBoth '/' parsed.path.data
    let path1 :=
      if ".git".data.isSuffixOf path0 then path0.take (path0.length - 4) else path0
    .ok ⟨pyLower provider, token, repo_url, parsed.netloc, ⟨path1⟩⟩

/-- `RepoContext.github_owner` (raises `ValueError` when the path has fewer
than two segments). -/
def RepoContext.github_owner (c : RepoContext) : Except String String :=
  let parts := pySplit c.path '/'
  if parts.length < 2 then .error ("Invalid GitHub repository URL: " ++ c.repo_url)
  else .ok (parts.getD (parts.length - 2) "")

/-- `RepoContext.github_repo`. -/
def RepoContext.github_repo (c : RepoContext) : Except String String :=
  let parts := pySplit c.path '/'
  if parts.length < 2 then .error ("Invalid GitHub repository URL: " ++ c.repo_url)
  else .ok (parts.getD (parts.length - 1) "")

/-- `RepoContext.github_repo_path` (`f"{owner}/{repo}"`). -/
def RepoContext.github_repo_path (c : RepoContext) : Except String String :=
  match c.github_owner, c.github_repo with
  | .ok o, .ok r => .ok (o ++ "/" ++ r)
  | .error e, _ => .error e
  | _, .error e => .error e

/-- `RepoContext.gitlab_project_path` (raises when the path is empty). -/
def RepoContext.gitlab_project_path (c : RepoContext) : Except String String :=
  if c.path = "" then .error ("Invalid GitLab repository URL: " ++ c.repo_url)
  else .ok c.path

/-- `RepoContext.gitlab_project_id` (percent-encoded project path). -/
def RepoContext.gitlab_project_id (c : RepoContext) : Except String String :=
  match c.gitlab_project_path with
  | .ok p => .ok (quote p)
  | .error e => .error e

/-- `RepoContext.bitbucket_workspace`. -/
def RepoContext.bitbucket_workspace (c : RepoContext) : Except String String :=
  let parts := pySplit c.path '/'
  if parts.length < 2 then .error ("Invalid Bitbucket repository URL: " ++ c.repo_url)
  else .ok (parts.getD (parts.length - 2) "")

/-- `RepoContext.bitbucket_repo_slug`. -/
def RepoContext.bitbucket_repo_slug (c : RepoContext) : Except String String :=
  let parts := pySplit c.path '/'
  if parts.length < 2 then .error ("Invalid Bitbucket repository URL: " ++ c.repo_url)
  else .ok (parts.getD (parts.length - 1) "")

/-- `RepoContext.bitbucket_repo_path`. -/
def RepoContext.bitbucket_repo_path (c : RepoContext) : Except String String :=
  match c.bitbucket_workspace, c.bitbucket_repo_slug with
  | .ok w, .ok s => .ok (w ++ "/" ++ s)
  | .error e, _ => .error e
  | _, .error e => .error e

/-! ## JSON values and the REST transport boundary

Provider payloads are JSON; the HTTP client is an external library.  The
network is modelled as an oracle mapping each request to either a response
or a transport-level exception.  Auth headers never influence control flow
in the source and are not modelled.
-/

/-- JSON-like values exchanged with the provider REST APIs. -/
inductive JVal where
  | null
  | s (v : String)
  | b (v : Bool)
  | n (v : Int)
  | arr (xs : List JVal)
  | obj (fields : List (String × JVal))

/-- Python `x == "lit"` for a string literal: true exactly for the equal
string (values of other types compare unequal to strings). -/
def JVal.isStr : JVal → String → Bool
  | .s w, v => w == v
  | _, _ => false

/-- Python truthiness of a JSON value. -/
def pyTruthy : JVal → Bool
  | .null => false
  | .s v => v != ""
  | .b v => v
  | .n v => v != 0
  | .arr xs => !xs.isEmpty
  | .obj fs => !fs.isEmpty

/-- Python `x or ""`. -/
def pyOrEmptyStr (j : JVal) : JVal :=
  if pyTruthy j then j else .s ""

/-- Python `d.get(k, default)`: defaulting lookup on a dict; on a non-dict
it raises `AttributeError`. -/
def getAttr : JVal → String → JVal → Except String JVal
  | .obj fields, k, d => .ok ((fields.lookup k).getD d)
  | _, _, _ => .error "AttributeError: get on non-dict"

/-- Python `d[k]`: raising lookup (`KeyError` / `TypeError`). -/
def getItem : JVal → String → Except String JVal
  | .obj fields, k =>
    match fields.lookup k with
    | some v => .ok v
    | none => .error ("KeyError: " ++ k)
  | _, _ => .error "TypeError: indexing non-dict"

/-- Python `k in x` (keys of a dict, substring of a string, member of a
list; `TypeError` otherwise). -/
def inKeyE : JVal → String → Except String Bool
  | .obj fields, k => .ok ((fields.lookup k).isSome)
  | .s v, k => .ok (containsSubAux k.data v.data)
  | .arr xs, k => .ok (xs.any (fun x => x.isStr k))
  | _, _ => .error "TypeError: membership test"

/-- Python `str(x)` as used in URL interpolation (provider item ids are
numbers or strings; the remaining cases stand in for `repr` and are not
reached by well-formed provider responses). -/
def pyStr : JVal → String
  | .s v => v
  | .n i => toString i
  | .b true => "True"
  | .b false => "False"
  | .null => "None"
  | .arr _ => "<list>"
  | .obj _ => "<dict>"

/-- One REST request: method, absolute URL, query params, JSON body. -/
structure RestReq where
  method : String
  url : String
  params : List (String × JVal)
  body : Option JVal

/-- One REST response: HTTP status, raw text, parsed JSON body. -/
structure RestResp where
  status : Nat
  text : String
  json : JVal

/-- The network oracle: `Except.error` is a transport-level exception from
the HTTP client (connection failure, timeout), which propagates. -/
def Net : Type := RestReq → Except String RestResp

/-- A computation against the network: the requests it issued, and its
result or the exception it raised. -/
structure MRes (α : Type) where
  trace : List RestReq
  result : Except String α

/-- The JSON payload `_request_json` yields for a successful response:
`{}` when the body is empty, the parsed body otherwise. -/
def jsonPayload (r : RestResp) : JVal :=
  if r.text = "" then .obj [] else r.json

/-- `_request_json`: issue the request; status ≥ 400 raises with method,
URL, status and the first 400 characters of the body with newlines
squashed; an empty body yields `{}`. -/
def request_json (net : Net) (method url : String) (params : List (String × JVal))
    (json_body : Option JVal) : MRes JVal :=
  match net ⟨method, url, params, json_body⟩ with
  | .error e => ⟨[⟨method, url, params, json_body⟩], .error e⟩
  | .ok r =>
    if r.status ≥ 400 then
      ⟨[⟨method, url, params, json_body⟩],
        .error (method ++ " " ++ url ++ " failed with " ++ toString r.status ++ ": "
          ++ pyReplace (pyTake r.text 400) "\n" " ")⟩
    else ⟨[⟨method, url, params, json_body⟩], .ok (jsonPayload r)⟩

/-- `_request_raw`: issue the request and return the response without
raising on HTTP error statuses. -/
def request_raw (net : Net) (method url : String) (params : List (String × JVal))
    (json_body : Option JVal) : MRes RestResp :=
  match net ⟨method, url, params, json_body⟩ with
  | .error e => ⟨[⟨method, url, params, json_body⟩], .error e⟩
  | .ok r => ⟨[⟨method, url, params, json_body⟩], .ok r⟩

/-- `_provider_api_base`. -/
def provider_api_base (c : RepoContext) : Except String String :=
  if c.provider = "github" then
    if pyLower c.host = "github.com" ∨ pyLower c.host = "www.github.com" then
      .ok "https://api.github.com"
    else
      .ok ("https://" ++ c.host ++ "/api/v3")
  else if c.provider = "gitlab" then
    .ok ("https://" ++ c.host ++ "/api/v4")
  else if c.provider = "bitbucket" then
    if pyLower c.host = "bitbucket.org" ∨ pyLower c.host = "www.bitbucket.org" then
      .ok "https://api.bitbucket.org/2.0"
    else
      .error "Bitbucket metadata migration currently supports bitbucket.org only"
  else
    .error ("Unsupported provider: " ++ c.provider)

/-- `METADATA_SUPPORTED_PROVIDERS`. -/
def METADATA_SUPPORTED_PROVIDERS : List String := ["github", "gitlab", "bitbucket"]

/-- `_metadata_supported`. -/
def metadata_supported (src dst : RepoContext) : Bool :=
  METADATA_SUPPORTED_PROVIDERS.contains src.provider
    && METADATA_SUPPORTED_PROVIDERS.contains dst.provider

/-! ## Pagination -/

/-- The per-page body of the GitHub-issues listing loop: skip entries
carrying a `pull_request` key, keep the rest; the membership test raises on
entries that support no membership test. -/
def filterKeepM (keep : JVal → Except String Bool) : List JVal → Except String (List JVal)
  | [] => .ok []
  | x :: xs =>
    match keep x with
    | .error e => .error e
    | .ok b =>
      match filterKeepM keep xs with
      | .error e => .error e
      | .ok rest => .ok (if b then x :: rest else rest)

/-- The per-page body of the user-listing loops:
`[item.get(key) for item in payload if item.get(key)]`. -/
def extractField (key : String) : List JVal → Except String (List JVal)
  | [] => .ok []
  | x :: xs =>
    match getAttr x key .null with
    | .error e => .error e
    | .ok v =>
      match extractField key xs with
      | .error e => .error e
      | .ok rest => .ok (if pyTruthy v then v :: rest else rest)

/-- The shared `for page in range(1, 11)` loop of the GitHub and GitLab
listers: request page `page`, stop on a falsy payload, process the page's
items, stop when the raw page holds fewer than 100 items.  `fuel` counts
the remaining allowed pages (10 at the top-level call). -/
def pagedLoop (net : Net) (url : String) (params : Nat → List (String × JVal))
    (process : List JVal → Except String (List JVal)) : Nat → Nat → MRes (List JVal)
  | _, 0 => ⟨[], .ok []⟩
  | page, fuel + 1 =>
    let r := request_json net "GET" url (params page) none
    match r.result with
    | .error e => ⟨r.trace, .error e⟩
    | .ok payload =>
      if pyTruthy payload then
        match payload with
        | .arr items =>
          match process items with
          | .error e => ⟨r.trace, .error e⟩
          | .ok kept =>
            if items.length < 100 then ⟨r.trace, .ok kept⟩
            else
              let rest := pagedLoop net url params process (page + 1) fuel
              ⟨r.trace ++ rest.trace, rest.result.map (fun tail => kept ++ tail)⟩
        | _ => ⟨r.trace, .error "TypeError: response payload is not a list"⟩
      else ⟨r.trace, .ok []⟩

/-- List-valued query params for GitHub/GitLab item listings. -/
def listParams (page : Nat) : List (String × JVal) :=
  [("state", .s "all"), ("per_page", .n 100), ("page", .n page)]

/-- List-valued query params for GitHub/GitLab user listings. -/
def userParams (page : Nat) : List (String × JVal) :=
  [("per_page", .n 100), ("page", .n page)]

/-- The cursor-following loop of `_bitbucket_paginated_get`: follow the
payload's `next` value while truthy, collect each page's `values` when it
is a list, stop after `fuel` pages (10 at the top-level call).  Query
params are only sent with the first request. -/
def bitbucketLoop (net : Net) : Nat → String → List (String × JVal) → MRes (List JVal)
  | 0, _, _ => ⟨[], .ok []⟩
  | fuel + 1, url, params =>
    let r := request_json net "GET" url params none
    match r.result with
    | .error e => ⟨r.trace, .error e⟩
    | .ok payload =>
      match getAttr payload "values" (.arr []) with
      | .error e => ⟨r.trace, .error e⟩
      | .ok values =>
        let items := match values with | .arr xs => xs | _ => []
        match getAttr payload "next" .null with
        | .error e => ⟨r.trace, .error e⟩
        | .ok (.s nurl) =>
          -- `while next_url`: a non-empty string continues the loop
          if nurl != "" then
            let rest := bitbucketLoop net fuel nurl []
            ⟨r.trace ++ rest.trace, rest.result.map (fun tail => items ++ tail)⟩
          else ⟨r.trace, .ok items⟩
        | .ok next =>
          -- a truthy non-string cursor would be rejected by the HTTP client
          if pyTruthy next then
            ⟨r.trace, .error "InvalidURL: next page url is not a string"⟩
          else ⟨r.trace, .ok items⟩

/-- `_bitbucket_paginated_get` with the default `max_pages=10`:
`pagelen=100` is added to the first request's params unless present. -/
def bitbucket_paginated_get (net : Net) (url : String)
    (params : List (String × JVal)) : MRes (List JVal) :=
  let qp := if (params.lookup "pagelen").isSome then params
            else params ++ [("pagelen", .n 100)]
  bitbucketLoop net 10 url qp

/-! ## Issue listing, normalization and creation -/

/-- `_list_github_issues`. -/
def list_github_issues (net : Net) (c : RepoContext) : MRes (List JVal) :=
  match provider_api_base c with
  | .error e => ⟨[], .error e⟩
  | .ok api_base =>
    match c.github_repo_path with
    | .error e => ⟨[], .error e⟩
    | .ok rp =>
      pagedLoop net (api_base ++ "/repos/" ++ rp ++ "/issues") listParams
        (filterKeepM (fun item =>
          match inKeyE item "pull_request" with
          | .error e => .error e
          | .ok b => .ok (!b)))
        1 10

/-- `_list_gitlab_issues`. -/
def list_gitlab_issues (net : Net) (c : RepoContext) : MRes (List JVal) :=
  match provider_api_base c with
  | .error e => ⟨[], .error e⟩
  | .ok api_base =>
    match c.gitlab_project_id with
    | .error e => ⟨[], .error e⟩
    | .ok pid =>
      pagedLoop net (api_base ++ "/projects/" ++ pid ++ "/issues") listParams .ok 1 10

/-- `_list_bitbucket_issues`. -/
def list_bitbucket_issues (net : Net) (c : RepoContext) : MRes (List JVal) :=
  match provider_api_base c with
  | .error e => ⟨[], .error e⟩
  | .ok api_base =>
    match c.bitbucket_repo_path with
    | .error e => ⟨[], .error e⟩
    | .ok rp =>
      bitbucket_paginated_get net (api_base ++ "/repositories/" ++ rp ++ "/issues")
        [("q", .s "state=\"new\" OR state=\"open\" OR state=\"resolved\" OR state=\"closed\"")]

/-- A normalized issue (the dict built by `_normalize_issue_from_source`;
every key is always present, so dict lookups on it are total). -/
structure NormalizedIssue where
  title : JVal
  description : JVal
  state : JVal
  labels : JVal

/-- GitHub label flattening:
`[label.get("name") for label in labels if isinstance(label, dict) and label.get("name")]`. -/
def githubLabelNames : JVal → Except String JVal
  | .arr ls => .ok (.arr (ls.filterMap (fun l =>
      match l with
      | .obj fields =>
        let nm := (fields.lookup "name").getD .null
        if pyTruthy nm then some nm else none
      | _ => none)))
  | _ => .error "TypeError: labels value is not iterable"

/-- GitLab state mapping `state.replace("opened", "open")` (a `str`
method: raises on non-strings). -/
def gitlabStateReplace : JVal → Except String JVal
  | .s v => .ok (.s (pyReplace v "opened" "open"))
  | _ => .error "AttributeError: replace on non-string"

/-- `_normalize_issue_from_source`. -/
def normalize_issue_from_source (provider : String) (issue : JVal) :
    Except String NormalizedIssue :=
  if provider = "github" then do
    let title ← getAttr issue "title" (.s "Untitled issue")
    let body ← getAttr issue "body" .null
    let state ← getAttr issue "state" (.s "open")
    let labelsJ ← getAttr issue "labels" (.arr [])
    let labels ← githubLabelNames labelsJ
    .ok ⟨title, pyOrEmptyStr body, state, labels⟩
  else if provider = "gitlab" then do
    let title ← getAttr issue "title" (.s "Untitled issue")
    let desc ← getAttr issue "description" .null
    let state0 ← getAttr issue "state" (.s "opened")
    let state ← gitlabStateReplace state0
    let labels ← getAttr issue "labels" (.arr [])
    .ok ⟨title, pyOrEmptyStr desc, state, labels⟩
  else if provider = "bitbucket" then do
    let title ← getAttr issue "title" (.s "Untitled issue")
    let content ← getAttr issue "content" (.obj [])
    let raw ← getAttr content "raw" (.s "")
    let state ← getAttr issue "state" .null
    let st : JVal := if state.isStr "resolved" || state.isStr "closed"
      then .s "closed" else .s "open"
    .ok ⟨title, raw, st, .arr []⟩
  else
    .error ("Unsupported provider for issue normalization: " ++ provider)

/-- A list of JSON values that must all be strings (`TypeError` otherwise,
as raised by `str.join` and by `sorted` over mixed types). -/
def allStrings : List JVal → Except String (List String)
  | [] => .ok []
  | .s v :: xs =>
    match allStrings xs with
    | .error e => .error e
    | .ok rest => .ok (v :: rest)
  | _ :: _ => .error "TypeError: expected a string"

/-- Python `",".join(labels)` (list of strings, or a string whose
characters are joined; otherwise `TypeError`). -/
def joinComma : JVal → Except String String
  | .arr xs =>
    match allStrings xs with
    | .error e => .error e
    | .ok ss => .ok (String.intercalate "," ss)
  | .s v => .ok (String.intercalate "," (v.data.map (fun ch => String.singleton ch)))
  | _ => .error "TypeError: join argument"

/-- `_create_github_issue`: POST the issue, then PATCH it closed when the
normalized state is `closed`. -/
def create_github_issue (net : Net) (c : RepoContext) (issue : NormalizedIssue) :
    MRes Unit :=
  match provider_api_base c with
  | .error e => ⟨[], .error e⟩
  | .ok api_base =>
    match c.github_repo_path with
    | .error e => ⟨[], .error e⟩
    | .ok rp =>
      let r1 := request_json net "POST" (api_base ++ "/repos/" ++ rp ++ "/issues") []
        (some (.obj [("title", issue.title), ("body", pyOrEmptyStr issue.description),
          ("labels", issue.labels)]))
      match r1.result with
      | .error e => ⟨r1.trace, .error e⟩
      | .ok created =>
        if issue.state.isStr "closed" then
          match getItem created "number" with
          | .error e => ⟨r1.trace, .error e⟩
          | .ok num =>
            let r2 := request_json net "PATCH"
              (api_base ++ "/repos/" ++ rp ++ "/issues/" ++ pyStr num) []
              (some (.obj [("state", .s "closed")]))
            ⟨r1.trace ++ r2.trace, r2.result.map (fun _ => ())⟩
        else ⟨r1.trace, .ok ()⟩

/-- `_create_gitlab_issue`: POST the issue, then PUT `state_event: close`
when the normalized state is `closed`. -/
def create_gitlab_issue (net : Net) (c : RepoContext) (issue : NormalizedIssue) :
    MRes Unit :=
  match provider_api_base c with
  | .error e => ⟨[], .error e⟩
  | .ok api_base =>
    match c.gitlab_project_id with
    | .error e => ⟨[], .error e⟩
    | .ok pid =>
      match joinComma issue.labels with
      | .error e => ⟨[], .error e⟩
      | .ok labelsStr =>
        let r1 := request_json net "POST" (api_base ++ "/projects/" ++ pid ++ "/issues") []
          (some (.obj [("title", issue.title), ("description", pyOrEmptyStr issue.description),
            ("labels", .s labelsStr)]))
        match r1.result with
        | .error e => ⟨r1.trace, .error e⟩
        | .ok created =>
          if issue.state.isStr "closed" then
            match getItem created "iid" with
            | .error e => ⟨r1.trace, .error e⟩
            | .ok iid =>
              let r2 := request_json net "PUT"
                (api_base ++ "/projects/" ++ pid ++ "/issues/" ++ pyStr iid) []
                (some (.obj [("state_event", .s "close")]))
              ⟨r1.trace ++ r2.trace, r2.result.map (fun _ => ())⟩
          else ⟨r1.trace, .ok ()⟩

/-- `_create_bitbucket_issue`: POST the issue, then PUT `state: resolved`
when the normalized state is `closed`. -/
def create_bitbucket_issue (net : Net) (c : RepoContext) (issue : NormalizedIssue) :
    MRes Unit :=
  match provider_api_base c with
  | .error e => ⟨[], .error e⟩
  | .ok api_base =>
    match c.bitbucket_repo_path with
    | .error e => ⟨[], .error e⟩
    | .ok rp =>
      let r1 := request_json net "POST"
        (api_base ++ "/repositories/" ++ rp ++ "/issues") []
        (some (.obj [("title", issue.title),
          ("content", .obj [("raw", pyOrEmptyStr issue.description)])]))
      match r1.result with
      | .error e => ⟨r1.trace, .error e⟩
      | .ok created =>
        if issue.state.isStr "closed" then
          match getItem created "id" with
          | .error e => ⟨r1.trace, .error e⟩
          | .ok iid =>
            let r2 := request_json net "PUT"
              (api_base ++ "/repositories/" ++ rp ++ "/issues/" ++ pyStr iid) []
              (some (.obj [("state", .s "resolved")]))
            ⟨r1.trace ++ r2.trace, r2.result.map (fun _ => ())⟩
        else ⟨r1.trace, .ok ()⟩

/-- Outcome record of one metadata action (`migrate_issues`,
`migrate_pull_requests`, `migrate_users`). -/
inductive MetaResult where
  | unsupported (message : String)
  | issuesDone (source_count created failed : Nat)
  | prsDone (source_count created skipped failed : Nat)
  | usersDone (source_count mapped_count unmapped_count : Nat)
      (mapped_sample unmapped_sample : List String) (note : String)
deriving DecidableEq, Repr

/-- The per-item loop of `migrate_issues`: normalize (errors propagate),
create at the destination (errors are caught and counted as `failed`). -/
def migrateIssuesLoop (net : Net) (dst : RepoContext) (srcProvider : String) :
    List JVal → Nat → Nat → MRes (Nat × Nat)
  | [], created, failed => ⟨[], .ok (created, failed)⟩
  | item :: rest, created, failed =>
    match normalize_issue_from_source srcProvider item with
    | .error e => ⟨[], .error e⟩
    | .ok normalized =>
      let cr :=
        if dst.provider = "github" then create_github_issue net dst normalized
        else if dst.provider = "gitlab" then create_gitlab_issue net dst normalized
        else create_bitbucket_issue net dst normalized
      match cr.result with
      | .ok _ =>
        let r := migrateIssuesLoop net dst srcProvider rest (created + 1) failed
        ⟨cr.trace ++ r.trace, r.result⟩
      | .error _ =>
        let r := migrateIssuesLoop net dst srcProvider rest created (failed + 1)
        ⟨cr.trace ++ r.trace, r.result⟩

/-- The tail of `migrate_issues` after the source listing: run the
per-item loop over the listed items and assemble the outcome record. -/
def migrateIssuesFinish (net : Net) (destination : RepoContext) (srcProvider : String)
    (listed : MRes (List JVal)) : MRes MetaResult :=
  match listed.result with
  | .error e => ⟨listed.trace, .error e⟩
  | .ok source_items =>
    match (migrateIssuesLoop net destination srcProvider source_items 0 0).result with
    | .error e =>
      ⟨listed.trace ++ (migrateIssuesLoop net destination srcProvider source_items 0 0).trace,
        .error e⟩
    | .ok counters =>
      ⟨listed.trace ++ (migrateIssuesLoop net destination srcProvider source_items 0 0).trace,
        .ok (.issuesDone source_items.length counters.1 counters.2)⟩

/-- `migrate_issues`. -/
def migrate_issues (net : Net) (source destination : RepoContext) : MRes MetaResult :=
  if metadata_supported source destination then
    migrateIssuesFinish net destination source.provider
      (if source.provider = "github" then list_github_issues net source
       else if source.provider = "gitlab" then list_gitlab_issues net source
       else list_bitbucket_issues net source)
  else
    ⟨[], .ok (.unsupported
      ("Issues migration supports providers ['bitbucket', 'github', 'gitlab']. Got "
        ++ source.provider ++ " -> " ++ destination.provider))⟩

/-! ## Pull request listing, normalization and creation -/

/-- `_list_github_prs`. -/
def list_github_prs (net : Net) (c : RepoContext) : MRes (List JVal) :=
  match provider_api_base c with
  | .error e => ⟨[], .error e⟩
  | .ok api_base =>
    match c.github_repo_path with
    | .error e => ⟨[], .error e⟩
    | .ok rp =>
      pagedLoop net (api_base ++ "/repos/" ++ rp ++ "/pulls") listParams .ok 1 10

/-- `_list_gitlab_mrs`. -/
def list_gitlab_mrs (net : Net) (c : RepoContext) : MRes (List JVal) :=
  match provider_api_base c with
  | .error e => ⟨[], .error e⟩
  | .ok api_base =>
    match c.gitlab_project_id with
    | .error e => ⟨[], .error e⟩
    | .ok pid =>
      pagedLoop net (api_base ++ "/projects/" ++ pid ++ "/merge_requests") listParams .ok 1 10

/-- `_list_bitbucket_prs`. -/
def list_bitbucket_prs (net : Net) (c : RepoContext) : MRes (List JVal) :=
  match provider_api_base c with
  | .error e => ⟨[], .error e⟩
  | .ok api_base =>
    match c.bitbucket_repo_path with
    | .error e => ⟨[], .error e⟩
    | .ok rp =>
      bitbucket_paginated_get net (api_base ++ "/repositories/" ++ rp ++ "/pullrequests")
        [("state", .s "OPEN,MERGED,DECLINED,SUPERSEDED")]

/-- A normalized pull request (the dict built by
`_normalize_pr_from_source`; every key is always present). -/
structure NormalizedPR where
  title : JVal
  description : JVal
  source_branch : JVal
  target_branch : JVal
  state : JVal
  draft : JVal

/-- `_normalize_pr_from_source`. -/
def normalize_pr_from_source (provider : String) (pull_request : JVal) :
    Except String NormalizedPR :=
  if provider = "github" then do
    let title ← getAttr pull_request "title" (.s "Untitled PR")
    let body ← getAttr pull_request "body" .null
    let headJ ← getAttr pull_request "head" (.obj [])
    let src ← getAttr headJ "ref" (.s "")
    let baseJ ← getAttr pull_request "base" (.obj [])
    let tgt ← getAttr baseJ "ref" (.s "")
    let state ← getAttr pull_request "state" (.s "open")
    let draft ← getAttr pull_request "draft" (.b false)
    .ok ⟨title, pyOrEmptyStr body, src, tgt, state, draft⟩
  else if provider = "gitlab" then do
    let title ← getAttr pull_request "title" (.s "Untitled MR")
    let desc ← getAttr pull_request "description" .null
    let src ← getAttr pull_request "source_branch" (.s "")
    let tgt ← getAttr pull_request "target_branch" (.s "")
    let state ← getAttr pull_request "state" .null
    let st : JVal := if state.isStr "closed" then .s "closed" else .s "open"
    .ok ⟨title, pyOrEmptyStr desc, src, tgt, st, .b false⟩
  else if provider = "bitbucket" then do
    let title ← getAttr pull_request "title" (.s "Untitled PR")
    let desc ← getAttr pull_request "description" .null
    let srcO ← getAttr pull_request "source" (.obj [])
    let srcB ← getAttr srcO "branch" (.obj [])
    let src ← getAttr srcB "name" (.s "")
    let dstO ← getAttr pull_request "destination" (.obj [])
    let dstB ← getAttr dstO "branch" (.obj [])
    let tgt ← getAttr dstB "name" (.s "")
    let state ← getAttr pull_request "state" (.s "OPEN")
    let st : JVal := if state.isStr "DECLINED" || state.isStr "SUPERSEDED"
      then .s "closed" else .s "open"
    .ok ⟨title, pyOrEmptyStr desc, src, tgt, st, .b false⟩
  else
    .error ("Unsupported provider for PR normalization: " ++ provider)

/-- `_create_github_pr`: POST the pull request, then PATCH it closed when
the normalized state is `closed`. -/
def create_github_pr (net : Net) (c : RepoContext) (pr : NormalizedPR) : MRes Unit :=
  match provider_api_base c with
  | .error e => ⟨[], .error e⟩
  | .ok api_base =>
    match c.github_repo_path with
    | .error e => ⟨[], .error e⟩
    | .ok rp =>
      let r1 := request_json net "POST" (api_base ++ "/repos/" ++ rp ++ "/pulls") []
        (some (.obj [("title", pr.title), ("body", pyOrEmptyStr pr.description),
          ("head", pr.source_branch), ("base", pr.target_branch), ("draft", pr.draft)]))
      match r1.result with
      | .error e => ⟨r1.trace, .error e⟩
      | .ok created =>
        if pr.state.isStr "closed" then
          match getItem created "number" with
          | .error e => ⟨r1.trace, .error e⟩
          | .ok num =>
            let r2 := request_json net "PATCH"
              (api_base ++ "/repos/" ++ rp ++ "/pulls/" ++ pyStr num) []
              (some (.obj [("state", .s "closed")]))
            ⟨r1.trace ++ r2.trace, r2.result.map (fun _ => ())⟩
        else ⟨r1.trace, .ok ()⟩

/-- `_create_gitlab_mr`: POST the merge request, then PUT
`state_event: close` when the normalized state is `closed`. -/
def create_gitlab_mr (net : Net) (c : RepoContext) (pr : NormalizedPR) : MRes Unit :=
  match provider_api_base c with
  | .error e => ⟨[], .error e⟩
  | .ok api_base =>
    match c.gitlab_project_id with
    | .error e => ⟨[], .error e⟩
    | .ok pid =>
      let r1 := request_json net "POST"
        (api_base ++ "/projects/" ++ pid ++ "/merge_requests") []
        (some (.obj [("title", pr.title), ("description", pyOrEmptyStr pr.description),
          ("source_branch", pr.source_branch), ("target_branch", pr.target_branch)]))
      match r1.result with
      | .error e => ⟨r1.trace, .error e⟩
      | .ok created =>
        if pr.state.isStr "closed" then
          match getItem created "iid" with
          | .error e => ⟨r1.trace, .error e⟩
          | .ok iid =>
            let r2 := request_json net "PUT"
              (api_base ++ "/projects/" ++ pid ++ "/merge_requests/" ++ pyStr iid) []
              (some (.obj [("state_event", .s "close")]))
            ⟨r1.trace ++ r2.trace, r2.result.map (fun _ => ())⟩
        else ⟨r1.trace, .ok ()⟩

/-- `_create_bitbucket_pr`: POST the pull request, then POST `/decline`
via the raw (non-raising) request when the normalized state is `closed`;
the decline's HTTP status is ignored. -/
def create_bitbucket_pr (net : Net) (c : RepoContext) (pr : NormalizedPR) : MRes Unit :=
  match provider_api_base c with
  | .error e => ⟨[], .error e⟩
  | .ok api_base =>
    match c.bitbucket_repo_path with
    | .error e => ⟨[], .error e⟩
    | .ok rp =>
      let r1 := request_json net "POST"
        (api_base ++ "/repositories/" ++ rp ++ "/pullrequests") []
        (some (.obj [("title", pr.title), ("description", pyOrEmptyStr pr.description),
          ("source", .obj [("branch", .obj [("name", pr.source_branch)])]),
          ("destination", .obj [("branch", .obj [("name", pr.target_branch)])])]))
      match r1.result with
      | .error e => ⟨r1.trace, .error e⟩
      | .ok created =>
        if pr.state.isStr "closed" then
          match getItem created "id" with
          | .error e => ⟨r1.trace, .error e⟩
          | .ok iid =>
            let r2 := request_raw net "POST"
              (api_base ++ "/repositories/" ++ rp ++ "/pullrequests/" ++ pyStr iid
                ++ "/decline") [] none
            ⟨r1.trace ++ r2.trace, r2.result.map (fun _ => ())⟩
        else ⟨r1.trace, .ok ()⟩

/-- The per-item loop of `migrate_pull_requests`: normalize (errors
propagate), skip items with a falsy source or target branch, create at the
destination (errors are caught and counted as `failed`). -/
def migratePrsLoop (net : Net) (dst : RepoContext) (srcProvider : String) :
    List JVal → Nat → Nat → Nat → MRes (Nat × Nat × Nat)
  | [], created, skipped, failed => ⟨[], .ok (created, skipped, failed)⟩
  | item :: rest, created, skipped, failed =>
    match normalize_pr_from_source srcProvider item with
    | .error e => ⟨[], .error e⟩
    | .ok normalized =>
      if !pyTruthy normalized.source_branch || !pyTruthy normalized.target_branch then
        migratePrsLoop net dst srcProvider rest created (skipped + 1) failed
      else
        let cr :=
          if dst.provider = "github" then create_github_pr net dst normalized
          else if dst.provider = "gitlab" then create_gitlab_mr net dst normalized
          else create_bitbucket_pr net dst normalized
        match cr.result with
        | .ok _ =>
          let r := migratePrsLoop net dst srcProvider rest (created + 1) skipped failed
          ⟨cr.trace ++ r.trace, r.result⟩
        | .error _ =>
          let r := migratePrsLoop net dst srcProvider rest created skipped (failed + 1)
          ⟨cr.trace ++ r.trace, r.result⟩

/-- The tail of `migrate_pull_requests` after the source listing. -/
def migratePrsFinish (net : Net) (destination : RepoContext) (srcProvider : String)
    (listed : MRes (List JVal)) : MRes MetaResult :=
  match listed.result with
  | .error e => ⟨listed.trace, .error e⟩
  | .ok source_items =>
    match (migratePrsLoop net destination srcProvider source_items 0 0 0).result with
    | .error e =>
      ⟨listed.trace ++ (migratePrsLoop net destination srcProvider source_items 0 0 0).trace,
        .error e⟩
    | .ok counters =>
      ⟨listed.trace ++ (migratePrsLoop net destination srcProvider source_items 0 0 0).trace,
        .ok (.prsDone source_items.length counters.1 counters.2.1 counters.2.2)⟩

/-- `migrate_pull_requests`. -/
def migrate_pull_requests (net : Net) (source destination : RepoContext) :
    MRes MetaResult :=
  if metadata_supported source destination then
    migratePrsFinish net destination source.provider
      (if source.provider = "github" then list_github_prs net source
       else if source.provider = "gitlab" then list_gitlab_mrs net source
       else list_bitbucket_prs net source)
  else
    ⟨[], .ok (.unsupported
      ("PR migration supports providers ['bitbucket', 'github', 'gitlab']. Got "
        ++ source.provider ++ " -> " ++ destination.provider))⟩

/-! ## User listing and mapping -/

/-- Insertion into a sorted list of strings. -/
def insertSorted (x : String) : List String → List String
  | [] => [x]
  | y :: ys => if x ≤ y then x :: y :: ys else y :: insertSorted x ys

/-- Ascending sort of a list of strings (insertion sort). -/
def sortStrings (l : List String) : List String :=
  l.foldr insertSorted []

/-- Python `sorted(set(usernames))` over collected JSON username values. -/
def sorted_set_userlist (vs : List JVal) : Except String (List String) :=
  match allStrings vs with
  | .error e => .error e
  | .ok ss => .ok (sortStrings (dedupFirst ss))

/-- `_list_github_users`. -/
def list_github_users (net : Net) (c : RepoContext) : MRes (List String) :=
  match provider_api_base c with
  | .error e => ⟨[], .error e⟩
  | .ok api_base =>
    match c.github_repo_path with
    | .error e => ⟨[], .error e⟩
    | .ok rp =>
      let l := pagedLoop net (api_base ++ "/repos/" ++ rp ++ "/collaborators") userParams
        (extractField "login") 1 10
      match l.result with
      | .error e => ⟨l.trace, .error e⟩
      | .ok vs =>
        match sorted_set_userlist vs with
        | .error e => ⟨l.trace, .error e⟩
        | .ok users => ⟨l.trace, .ok users⟩

/-- `_list_gitlab_users`. -/
def list_gitlab_users (net : Net) (c : RepoContext) : MRes (List String) :=
  match provider_api_base c with
  | .error e => ⟨[], .error e⟩
  | .ok api_base =>
    match c.gitlab_project_id with
    | .error e => ⟨[], .error e⟩
    | .ok pid =>
      let l := pagedLoop net (api_base ++ "/projects/" ++ pid ++ "/members/all") userParams
        (extractField "username") 1 10
      match l.result with
      | .error e => ⟨l.trace, .error e⟩
      | .ok vs =>
        match sorted_set_userlist vs with
        | .error e => ⟨l.trace, .error e⟩
        | .ok users => ⟨l.trace, .ok users⟩

/-- `username = user_obj.get("username") or user_obj.get("nickname") or
user_obj.get("display_name")`. -/
def usernameOf (userObj : JVal) : Except String JVal := do
  let u ← getAttr userObj "username" .null
  if pyTruthy u then .ok u
  else
    let n ← getAttr userObj "nickname" .null
    if pyTruthy n then .ok n
    else getAttr userObj "display_name" .null

/-- `collect_usernames(items, wrapped_user_key=…)`, returning the
usernames added before any extraction error (the enclosing `safe_collect`
swallows the error but keeps what was already added to the set). -/
def collectUsernamesAux (wrapped : Option String) : List JVal → List JVal × Bool
  | [] => ([], false)
  | item :: rest =>
    let userObjE :=
      match wrapped with
      | some k => getAttr item k (.obj [])
      | none => .ok item
    match userObjE with
    | .error _ => ([], true)
    | .ok userObj =>
      match usernameOf userObj with
      | .error _ => ([], true)
      | .ok u =>
        let tail := collectUsernamesAux wrapped rest
        if pyTruthy u then (u :: tail.1, tail.2) else tail

/-- `collect_issue_users`: reporter then assignee of each issue; usernames
added before an extraction error are kept. -/
def collectIssueUsersAux : List JVal → List JVal × Bool
  | [] => ([], false)
  | item :: rest =>
    match getAttr item "reporter" (.obj []) with
    | .error _ => ([], true)
    | .ok rep =>
      match usernameOf rep with
      | .error _ => ([], true)
      | .ok u1 =>
        let here1 := if pyTruthy u1 then [u1] else []
        match getAttr item "assignee" (.obj []) with
        | .error _ => (here1, true)
        | .ok asg =>
          match usernameOf asg with
          | .error _ => (here1, true)
          | .ok u2 =>
            let tail := collectIssueUsersAux rest
            (here1 ++ (if pyTruthy u2 then [u2] else []) ++ tail.1, tail.2)

/-- One `safe_collect(fetch, extract)` block: a fetch error contributes
nothing; an extraction error keeps the partially collected names.  The
repository-path property is evaluated inside the guarded callable, so its
`ValueError` is swallowed too. -/
def safeCollectBlock (rpE : Except String String) (fetch : String → MRes (List JVal))
    (extract : List JVal → List JVal × Bool) : List RestReq × List JVal :=
  match rpE with
  | .error _ => ([], [])
  | .ok rp =>
    let f := fetch rp
    match f.result with
    | .error _ => (f.trace, [])
    | .ok values => (f.trace, (extract values).1)

/-- `_list_bitbucket_users`: compose default reviewers, watchers, issue
reporters/assignees and PR authors, each behind `safe_collect`; finally
`sorted(set(users))`. -/
def list_bitbucket_users (net : Net) (c : RepoContext) : MRes (List String) :=
  match provider_api_base c with
  | .error e => ⟨[], .error e⟩
  | .ok api_base =>
    let b1 := safeCollectBlock c.bitbucket_repo_path
      (fun rp => bitbucket_paginated_get net
        (api_base ++ "/repositories/" ++ rp ++ "/default-reviewers") [])
      (collectUsernamesAux none)
    let b2 := safeCollectBlock c.bitbucket_repo_path
      (fun rp => bitbucket_paginated_get net
        (api_base ++ "/repositories/" ++ rp ++ "/watchers") [])
      (collectUsernamesAux (some "user"))
    let b3 := safeCollectBlock c.bitbucket_repo_path
      (fun rp => bitbucket_paginated_get net
        (api_base ++ "/repositories/" ++ rp ++ "/issues") [])
      collectIssueUsersAux
    let b4 := safeCollectBlock c.bitbucket_repo_path
      (fun rp => bitbucket_paginated_get net
        (api_base ++ "/repositories/" ++ rp ++ "/pullrequests")
        [("state", .s "OPEN,MERGED,DECLINED,SUPERSEDED")])
      (collectUsernamesAux (some "author"))
    let trace := b1.1 ++ b2.1 ++ b3.1 ++ b4.1
    match sorted_set_userlist (b1.2 ++ b2.2 ++ b3.2 ++ b4.2) with
    | .error e => ⟨trace, .error e⟩
    | .ok users => ⟨trace, .ok users⟩

/-- `_user_exists_on_destination`. -/
def user_exists_on_destination (net : Net) (c : RepoContext) (username : String) :
    MRes Bool :=
  if c.provider = "github" then
    match provider_api_base c with
    | .error e => ⟨[], .error e⟩
    | .ok api_base =>
      let req : RestReq := ⟨"GET", api_base ++ "/users/" ++ quote username, [], none⟩
      match net req with
      | .error e => ⟨[req], .error e⟩
      | .ok r => ⟨[req], .ok (r.status == 200)⟩
  else if c.provider = "gitlab" then
    match provider_api_base c with
    | .error e => ⟨[], .error e⟩
    | .ok api_base =>
      let r := request_json net "GET" (api_base ++ "/users")
        [("username", .s username), ("per_page", .n 1)] none
      match r.result with
      | .error e => ⟨r.trace, .error e⟩
      | .ok payload => ⟨r.trace, .ok (pyTruthy payload)⟩
  else if c.provider = "bitbucket" then
    let l := list_bitbucket_users net c
    match l.result with
    | .error _ => ⟨l.trace, .ok false⟩
    | .ok users => ⟨l.trace, .ok (users.contains username)⟩
  else ⟨[], .ok false⟩

/-- The per-username loop of `migrate_users`: membership in the
pre-computed bitbucket destination set, or a per-user existence probe; an
exception from the probe appends to `unmapped`. -/
def migrateUsersLoop (net : Net) (dst : RepoContext) (dstBB : Option (List String)) :
    List String → List String → List String → MRes (List String × List String)
  | [], mapped, unmapped => ⟨[], .ok (mapped, unmapped)⟩
  | username :: rest, mapped, unmapped =>
    let existsR : MRes Bool :=
      match dstBB with
      | some users => ⟨[], .ok (users.contains username)⟩
      | none => user_exists_on_destination net dst username
    match existsR.result with
    | .ok true =>
      let r := migrateUsersLoop net dst dstBB rest (mapped ++ [username]) unmapped
      ⟨existsR.trace ++ r.trace, r.result⟩
    | .ok false =>
      let r := migrateUsersLoop net dst dstBB rest mapped (unmapped ++ [username])
      ⟨existsR.trace ++ r.trace, r.result⟩
    | .error _ =>
      let r := migrateUsersLoop net dst dstBB rest mapped (unmapped ++ [username])
      ⟨existsR.trace ++ r.trace, r.result⟩

/-- The note attached to every completed user-mapping result. -/
def usersNote : String :=
  "This step maps usernames only; it does not create destination users."

/-- The tail of `migrate_users` after the source listing: pre-list the
destination users when the destination is Bitbucket, then run the mapping
loop and assemble the outcome record. -/
def migrateUsersFinish (net : Net) (destination : RepoContext)
    (listed : MRes (List String)) : MRes MetaResult :=
  match listed.result with
  | .error e => ⟨listed.trace, .error e⟩
  | .ok source_users =>
    if destination.provider = "bitbucket" then
      match (list_bitbucket_users net destination).result with
      | .error e => ⟨listed.trace ++ (list_bitbucket_users net destination).trace, .error e⟩
      | .ok dusers =>
        match (migrateUsersLoop net destination (some dusers) source_users [] []).result with
        | .error e =>
          ⟨listed.trace ++ (list_bitbucket_users net destination).trace
            ++ (migrateUsersLoop net destination (some dusers) source_users [] []).trace,
            .error e⟩
        | .ok lists =>
          ⟨listed.trace ++ (list_bitbucket_users net destination).trace
            ++ (migrateUsersLoop net destination (some dusers) source_users [] []).trace,
            .ok (.usersDone source_users.length lists.1.length lists.2.length
              (lists.1.take 20) (lists.2.take 20) usersNote)⟩
    else
      match (migrateUsersLoop net destination none source_users [] []).result with
      | .error e =>
        ⟨listed.trace ++ (migrateUsersLoop net destination none source_users [] []).trace,
          .error e⟩
      | .ok lists =>
        ⟨listed.trace ++ (migrateUsersLoop net destination none source_users [] []).trace,
          .ok (.usersDone source_users.length lists.1.length lists.2.length
            (lists.1.take 20) (lists.2.take 20) usersNote)⟩

/-- `migrate_users`. -/
def migrate_users (net : Net) (source destination : RepoContext) : MRes MetaResult :=
  if metadata_supported source destination then
    migrateUsersFinish net destination
      (if source.provider = "github" then list_github_users net source
       else if source.provider = "gitlab" then list_gitlab_users net source
       else list_bitbucket_users net source)
  else
    ⟨[], .ok (.unsupported
      ("User mapping supports providers ['bitbucket', 'github', 'gitlab']. Got "
        ++ source.provider ++ " -> " ++ destination.provider))⟩

/-! ## The orchestrator (`perform_migration`)

The git subprocess boundary is an oracle (`GitEnv`); its errors are
`GitCommandError` messages.  Job-store writes are modelled as the sequence
of `_update_job` calls, folded over an arbitrary prior record, so repeated
runs of the same periodic job are sequences of folds.  Network activity is
recorded as a trace of events: the clone, each push, and each REST call.
The temporary working tree (creation and cleanup) is filesystem-only and
not modelled.
-/

/-- `MigrationActions` (the validated form: `specific_branches` has been
normalized by the pydantic validator before `perform_migration` runs). -/
structure MigrationActions where
  migrate_repo : Bool
  migrate_branches : Bool
  specific_branches : List String
  migrate_tags : Bool
  migrate_issues : Bool
  migrate_prs : Bool
  migrate_users : Bool

/-- `MigrationRequest`. -/
structure MigrationRequest where
  source_type : String
  source_token : String
  source_repo_url : String
  dest_type : String
  dest_token : String
  dest_repo_url : String
  actions : MigrationActions

/-- The value stored under one key of a job's `results` dict. -/
inductive ResultVal where
  | str (s : String)
  | pushedBranches (pushed : List String)
  | missingBranches (names : List String)
  | meta (m : MetaResult)
deriving DecidableEq, Repr

/-- A job-store record (the fields `_update_job` maintains). -/
structure JobState where
  status : String
  results : List (String × ResultVal)
  error : Option String
deriving DecidableEq, Repr

/-- One `_update_job` call: the fields passed as keyword updates. -/
structure JobUpdate where
  setStatus : Option String
  setResults : Option (List (String × ResultVal))
  setError : Option (Option String)
deriving DecidableEq, Repr

/-- Merge one update into a record (Python `dict.update`). -/
def applyUpdate (j : JobState) (u : JobUpdate) : JobState :=
  ⟨u.setStatus.getD j.status, u.setResults.getD j.results, u.setError.getD j.error⟩

/-- Fold a run's updates over a prior record. -/
def applyUpdates (j : JobState) (us : List JobUpdate) : JobState :=
  us.foldl applyUpdate j

/-- `_update_job(status="processing", results={}, error=None)`. -/
def processingUpdate : JobUpdate := ⟨some "processing", some [], some none⟩

/-- `_update_job(status="completed", results=results)`. -/
def completedUpdate (results : List (String × ResultVal)) : JobUpdate :=
  ⟨some "completed", some results, none⟩

/-- `_update_job(status="failed", error=…)`. -/
def failedUpdate (msg : String) : JobUpdate :=
  ⟨some "failed", none, some (some msg)⟩

/-- Network-activity events of one orchestrator run. -/
inductive Ev where
  | clone
  | push (refspec : String)
  | rest (r : RestReq)

/-- The git subprocess boundary: outcomes of clone, push (by refspec) and
`rev-parse --verify` (by ref); errors are `GitCommandError` messages. -/
structure GitEnv where
  clone : Except String Unit
  push : String → Except String Unit
  revParse : String → Except String Unit

/-- The outcome of one `perform_migration` invocation: the network events
it performed, the `_update_job` calls it made, and the exception that
escaped it, if any (an escaped exception leaves the job non-terminal). -/
structure RunOut where
  events : List Ev
  updates : List JobUpdate
  escaped : Option String

/-- Sequence two phases, concatenating events; an error stops the run. -/
def seqPhase {α β : Type} (a : List Ev × Except String α)
    (f : α → List Ev × Except String β) : List Ev × Except String β :=
  match a.2 with
  | .error e => (a.1, .error e)
  | .ok v => (a.1 ++ (f v).1, (f v).2)

/-- One `repo.git.push("migration_dest", refspec)` recording a `"success"`
result entry under `key`. -/
def pushStep (git : GitEnv) (refspec key : String)
    (results : List (String × ResultVal)) :
    List Ev × Except String (List (String × ResultVal)) :=
  match git.push refspec with
  | .error e => ([.push refspec], .error e)
  | .ok _ => ([.push refspec], .ok (results ++ [(key, .str "success")]))

/-- The `specific_branches` loop: verify each branch locally (a failed
`rev-parse` files it under `missing`), push the verified ones (a failed
push raises `GitCommandError`, discarding the partial results). -/
def specificBranchesLoop (git : GitEnv) :
    List String → List String → List String →
    List Ev × Except String (List String × List String)
  | [], pushed, missing => ([], .ok (pushed, missing))
  | branch :: rest, pushed, missing =>
    match git.revParse ("refs/heads/" ++ branch) with
    | .error _ => specificBranchesLoop git rest pushed (missing ++ [branch])
    | .ok _ =>
      match git.push ("refs/heads/" ++ branch ++ ":refs/heads/" ++ branch) with
      | .error e =>
        ([.push ("refs/heads/" ++ branch ++ ":refs/heads/" ++ branch)], .error e)
      | .ok _ =>
        match specificBranchesLoop git rest (pushed ++ [branch]) missing with
        | (evs, r) =>
          (.push ("refs/heads/" ++ branch ++ ":refs/heads/" ++ branch) :: evs, r)

/-- The `specific_branches` step: record `specific_branches.pushed` and
`specific_branches_missing` entries when non-empty. -/
def specStep (git : GitEnv) (actions : MigrationActions)
    (results : List (String × ResultVal)) :
    List Ev × Except String (List (String × ResultVal)) :=
  if !actions.specific_branches.isEmpty then
    match specificBranchesLoop git actions.specific_branches [] [] with
    | (evs, .error e) => (evs, .error e)
    | (evs, .ok pm) =>
      (evs, .ok
        ((if !pm.1.isEmpty then results ++ [("specific_branches", .pushedBranches pm.1)]
          else results)
          ++ (if !pm.2.isEmpty then [("specific_branches_missing", .missingBranches pm.2)]
              else [])))
  else ([], .ok results)

/-- The ref-transport phase of `perform_migration`: mirror push when
`migrate_repo`, otherwise branches, selected branches, tags, and a
`repository: skipped` entry when no ref-level flag is set. -/
def refPhase (git : GitEnv) (actions : MigrationActions) :
    List Ev × Except String (List (String × ResultVal)) :=
  if actions.migrate_repo then
    pushStep git "--mirror migration_dest" "repository" []
  else
    seqPhase
      (if actions.migrate_branches then pushStep git "refs/heads/*:refs/heads/*" "branches" []
       else ([], .ok []))
      (fun res1 =>
        seqPhase (specStep git actions res1)
          (fun res2 =>
            seqPhase
              (if actions.migrate_tags then pushStep git "refs/tags/*:refs/tags/*" "tags" res2
               else ([], .ok res2))
              (fun res3 =>
                ([], .ok
                  (if !actions.migrate_branches && actions.specific_branches.isEmpty
                      && !actions.migrate_tags
                   then res3 ++ [("repository", .str "skipped")]
                   else res3)))))

/-- One enabled metadata action: record its outcome under `key`; an
exception from the action propagates (failing the job). -/
def metaStep (flag : Bool) (key : String) (action : MRes MetaResult)
    (results : List (String × ResultVal)) :
    List Ev × Except String (List (String × ResultVal)) :=
  if flag then
    match action.result with
    | .error e => (action.trace.map Ev.rest, .error e)
    | .ok m => (action.trace.map Ev.rest, .ok (results ++ [(key, .meta m)]))
  else ([], .ok results)

/-- The metadata phase of `perform_migration`: issues, then PRs, then
users, each when enabled. -/
def metaPhase (net : Net) (src dst : RepoContext) (actions : MigrationActions)
    (results0 : List (String × ResultVal)) :
    List Ev × Except String (List (String × ResultVal)) :=
  seqPhase (metaStep actions.migrate_issues "issues" (migrate_issues net src dst) results0)
    (fun res1 =>
      seqPhase (metaStep actions.migrate_prs "prs" (migrate_pull_requests net src dst) res1)
        (fun res2 =>
          metaStep actions.migrate_users "users" (migrate_users net src dst) res2))

/-- `perform_migration(job_id, req)`: set the job to `processing`, shape
auth URLs and contexts (a context `ValueError` escapes, leaving the job
non-terminal), then clone, push refs, run metadata actions; a
`GitCommandError` fails the job with a `Git command failed:` prefix, any
other exception fails it with its redacted message; success records the
aggregated results under `completed`.  (The fresh bare clone never has a
`migration_dest` remote, so the remote bookkeeping is local and silent.) -/
def perform_migration (req : MigrationRequest) (git : GitEnv) (net : Net) : RunOut :=
  match repo_context req.source_type req.source_token req.source_repo_url with
  | .error e => ⟨[], [processingUpdate], some e⟩
  | .ok source_context =>
    match repo_context req.dest_type req.dest_token req.dest_repo_url with
    | .error e => ⟨[], [processingUpdate], some e⟩
    | .ok destination_context =>
      match git.clone with
      | .error e =>
        ⟨[.clone],
          [processingUpdate, failedUpdate ("Git command failed: "
            ++ redact_sensitive e [req.source_token, req.dest_token])], none⟩
      | .ok _ =>
        match refPhase git req.actions with
        | (evs, .error e) =>
          ⟨.clone :: evs,
            [processingUpdate, failedUpdate ("Git command failed: "
              ++ redact_sensitive e [req.source_token, req.dest_token])], none⟩
        | (evs, .ok res1) =>
          match metaPhase net source_context destination_context req.actions res1 with
          | (evs2, .error e) =>
            ⟨.clone :: (evs ++ evs2),
              [processingUpdate,
                failedUpdate (redact_sensitive e [req.source_token, req.dest_token])], none⟩
          | (evs2, .ok results) =>
            ⟨.clone :: (evs ++ evs2),
              [processingUpdate, completedUpdate results], none⟩

/-- The job record after a run, folded over the prior record. -/
def finalJob (prior : JobState) (out : RunOut) : JobState :=
  applyUpdates prior out.updates

/-! ## Trace predicates and concrete scenarios -/

/-- Every request of the trace except the last was answered with a full
page: an HTTP success whose payload is a list of at least 100 items.  This
is the reason a GitHub/GitLab pagination loop issued a further request. -/
def chainFullPage (net : Net) : List RestReq → Prop
  | [] => True
  | [_] => True
  | req :: rest =>
    (∃ r items, net req = .ok r ∧ r.status < 400 ∧ jsonPayload r = .arr items ∧
      100 ≤ items.length) ∧ chainFullPage net rest

/-- Every request of the trace except the last was answered with an HTTP
success whose payload carries a truthy (non-empty string) `next` cursor.
This is the reason a Bitbucket pagination loop issued a further request. -/
def chainNextCursor (net : Net) : List RestReq → Prop
  | [] => True
  | [_] => True
  | req :: rest =>
    (∃ r fields nurl, net req = .ok r ∧ r.status < 400 ∧ jsonPayload r = .obj fields ∧
      (fields.lookup "next").getD .null = .s nurl ∧ nurl ≠ "") ∧ chainNextCursor net rest

/-- A GitLab-to-GitLab source context for concrete scenarios. -/
def ctxGitlabSrc : RepoContext :=
  ⟨"gitlab", "t1", "https://gitlab.com/g/p", "gitlab.com", "g/p"⟩

/-- A GitLab-to-GitLab destination context for concrete scenarios. -/
def ctxGitlabDst : RepoContext :=
  ⟨"gitlab", "t2", "https://gitlab.com/g2/p2", "gitlab.com", "g2/p2"⟩

/-- A Bitbucket destination context for concrete scenarios. -/
def ctxBitbucketDst : RepoContext :=
  ⟨"bitbucket", "u:p", "https://bitbucket.org/w/s", "bitbucket.org", "w/s"⟩

/-- Scenario oracle: listing returns one closed issue, creation succeeds,
and the provider-specific close call fails with HTTP 500. -/
def netCloseFails : Net := fun req =>
  if req.method = "GET" then
    .ok ⟨200, "x", .arr [.obj [("title", .s "B"), ("state", .s "closed")]]⟩
  else if req.method = "POST" then
    .ok ⟨201, "x", .obj [("iid", .n 1)]⟩
  else
    .ok ⟨500, "boom", .null⟩

/-- Scenario oracle: a Bitbucket PR creation succeeds and the `/decline`
call answers with HTTP 500 (which `_request_raw` does not raise on). -/
def netDeclineFails : Net := fun req =>
  if pyContains req.url "/decline" then
    .ok ⟨500, "boom", .null⟩
  else
    .ok ⟨201, "x", .obj [("id", .n 3)]⟩

/-- Scenario git boundary where clone, every push and every `rev-parse`
succeed. -/
def gitAllOk : GitEnv := ⟨.ok (), fun _ => .ok (), fun _ => .ok ()⟩

/-- Scenario oracle for runs that are not expected to reach the network. -/
def netOffline : Net := fun _ => .error "offline"

/-- Scenario request: all ref-level flags on (the default actions), no
metadata actions. -/
def sampleRequest : MigrationRequest :=
  ⟨"github", "tokS", "https://github.com/a/b", "gitlab", "tokD", "https://gitlab.com/g/p",
   ⟨true, true, [], true, false, false, false⟩⟩

/-- Scenario request: a GitHub source URL with a single path segment and
issues migration enabled. -/
def sampleBadRequest : MigrationRequest :=
  ⟨"github", "tokS", "https://github.com/foo", "gitlab", "tokD", "https://gitlab.com/g/p",
   ⟨true, true, [], true, true, false, false⟩⟩

/-- Scenario request: a Bitbucket source URL with a single path segment
and issues migration enabled. -/
def sampleBadBitbucketRequest : MigrationRequest :=
  ⟨"bitbucket", "u:p", "https://bitbucket.org/onlyws", "gitlab", "tokD",
   "https://gitlab.com/g/p", ⟨true, true, [], true, true, false, false⟩⟩

/-- Scenario request: the same short Bitbucket source URL with user
mapping as the only metadata action. -/
def sampleUsersOnlyRequest : MigrationRequest :=
  ⟨"bitbucket", "u:p", "https://bitbucket.org/onlyws", "gitlab", "tokD",
   "https://gitlab.com/g/p", ⟨true, true, [], true, false, false, true⟩⟩

/-- A pending job record, as created at request acceptance. -/
def pendingJob : JobState := ⟨"pending", [], none⟩

/-! ## Lemmas about the string primitives -/

lemma stringDataEq {s t : String} (h : s.data = t.data) : s = t := by
  cases s
  cases t
  exact congrArg String.mk h

lemma nil_isPrefixOf (l : List Char) : List.isPrefixOf [] l = true := by
  cases l <;> rfl

lemma isPrefixOf_self (l : List Char) : l.isPrefixOf l = true := by
  induction l with
  | nil => rfl
  | cons c rest ih => simp [List.isPrefixOf, ih]

lemma isPrefixOf_append_of {l m : List Char} (t : List Char)
    (h : l.isPrefixOf m = true) : l.isPrefixOf (m ++ t) = true := by
  induction l generalizing m with
  | nil => exact nil_isPrefixOf _
  | cons c rest ih =>
    cases m with
    | nil => simp [List.isPrefixOf] at h
    | cons d ms =>
      simp only [List.isPrefixOf, Bool.and_eq_true, beq_iff_eq] at h
      simp only [List.cons_append, List.isPrefixOf, Bool.and_eq_true, beq_iff_eq]
      exact ⟨h.1, ih h.2⟩

lemma isPrefixOf_append_self (l t : List Char) : l.isPrefixOf (l ++ t) = true :=
  isPrefixOf_append_of t (isPrefixOf_self l)

lemma replaceAux_fuel (pat rep : List Char) :
    ∀ (f₁ : Nat) (s : List Char) (f₂ : Nat), s.length ≤ f₁ → s.length ≤ f₂ →
      replaceAux pat rep f₁ s = replaceAux pat rep f₂ s := by
  intro f₁
  induction f₁ with
  | zero =>
    intro s f₂ h1 _
    have hs : s = [] := List.eq_nil_of_length_eq_zero (Nat.le_zero.mp h1)
    subst hs
    cases f₂ <;> rfl
  | succ g ih =>
    intro s f₂ h1 h2
    cases s with
    | nil => cases f₂ <;> rfl
    | cons c rest =>
      cases f₂ with
      | zero => simp at h2
      | succ g₂ =>
        simp only [replaceAux]
        by_cases hc : pat ≠ [] ∧ pat.isPrefixOf (c :: rest)
        · rw [if_pos hc, if_pos hc]
          have hpat : 1 ≤ pat.length := by
            cases pat with
            | nil => exact absurd rfl hc.1
            | cons x xs => simp
          have hlen : ((c :: rest).drop pat.length).length ≤ g := by
            simp only [List.length_drop, List.length_cons]
            simp only [List.length_cons] at h1
            omega
          have hlen₂ : ((c :: rest).drop pat.length).length ≤ g₂ := by
            simp only [List.length_drop, List.length_cons]
            simp only [List.length_cons] at h2
            omega
          exact congrArg (rep ++ ·) (ih _ _ hlen hlen₂)
        · rw [if_neg hc, if_neg hc]
          have e1 : rest.length ≤ g := by
            simp only [List.length_cons] at h1; omega
          have e2 : rest.length ≤ g₂ := by
            simp only [List.length_cons] at h2; omega
          exact congrArg (c :: ·) (ih rest g₂ e1 e2)

lemma replaceAux_not_contains (pat rep : List Char) (_hp : pat ≠ []) :
    ∀ (s : List Char) (f : Nat), containsSubAux pat s = false →
      replaceAux pat rep f s = s := by
  intro s
  induction s with
  | nil => intro f _; cases f <;> rfl
  | cons c rest ih =>
    intro f h
    simp only [containsSubAux, Bool.or_eq_false_iff] at h
    cases f with
    | zero => rfl
    | succ g =>
      simp only [replaceAux]
      rw [if_neg (by
        intro hcon
        rw [h.1] at hcon
        exact Bool.false_ne_true hcon.2)]
      exact congrArg (c :: ·) (ih g h.2)

lemma pyReplaceL_not_contains (s pat rep : List Char) (hp : pat ≠ [])
    (h : containsSubAux pat s = false) : pyReplaceL s pat rep = s :=
  replaceAux_not_contains pat rep hp s s.length h

lemma pyReplaceL_boundary (t rep : List Char) (ht : t ≠ []) :
    ∀ (a b : List Char), earlyOccur t a b = false → containsSubAux t b = false →
      pyReplaceL (a ++ t ++ b) t rep = a ++ (rep ++ b) := by
  intro a
  induction a with
  | nil =>
    intro b _ hb
    simp only [List.nil_append]
    obtain ⟨c, t', rfl⟩ : ∃ c t', t = c :: t' := by
      cases t with
      | nil => exact absurd rfl ht
      | cons c t' => exact ⟨c, t', rfl⟩
    show replaceAux (c :: t') rep (c :: (t' ++ b)).length (c :: (t' ++ b)) = rep ++ b
    simp only [List.length_cons, replaceAux]
    rw [if_pos ⟨ht, isPrefixOf_append_self (c :: t') b⟩]
    have hdrop : List.drop (t'.length + 1) (c :: (t' ++ b)) = b := by
      simp only [List.drop_succ_cons]
      exact List.drop_left t' b
    rw [hdrop]
    rw [replaceAux_fuel (c :: t') rep (t' ++ b).length b b.length
      (by simp) (Nat.le_refl _)]
    rw [replaceAux_not_contains (c :: t') rep ht b b.length hb]
  | cons c a ih =>
    intro b h hb
    have h0 : t.isPrefixOf (c :: (a ++ t ++ b)) = false ∧ earlyOccur t a b = false := by
      simpa only [earlyOccur, Bool.or_eq_false_iff] using h
    show replaceAux t rep (c :: (a ++ t ++ b)).length (c :: (a ++ t ++ b))
        = c :: (a ++ (rep ++ b))
    simp only [List.length_cons, replaceAux]
    rw [if_neg (by
      intro hcon
      rw [h0.1] at hcon
      exact Bool.false_ne_true hcon.2)]
    exact congrArg (c :: ·) (ih b h0.2 hb)

lemma containsSub_http_https (r : List Char) :
    containsSubAux "https://".data ("http://".data ++ r)
      = containsSubAux "https://".data r := by
  show containsSubAux "https://".data ('h' :: 't' :: 't' :: 'p' :: ':' :: '/' :: '/' :: r)
      = containsSubAux "https://".data r
  simp only [containsSubAux]
  rw [show List.isPrefixOf "https://".data ('h' :: 't' :: 't' :: 'p' :: ':' :: '/' :: '/' :: r) = false from rfl]
  rw [show List.isPrefixOf "https://".data ('t' :: 't' :: 'p' :: ':' :: '/' :: '/' :: r) = false from rfl]
  rw [show List.isPrefixOf "https://".data ('t' :: 'p' :: ':' :: '/' :: '/' :: r) = false from rfl]
  rw [show List.isPrefixOf "https://".data ('p' :: ':' :: '/' :: '/' :: r) = false from rfl]
  rw [show List.isPrefixOf "https://".data (':' :: '/' :: '/' :: r) = false from rfl]
  rw [show List.isPrefixOf "https://".data ('/' :: '/' :: r) = false from rfl]
  rw [show List.isPrefixOf "https://".data ('/' :: r) = false from rfl]
  simp

lemma data_ne_nil_of_ne_empty {s : String} (h : s ≠ "") : s.data ≠ [] := by
  intro he
  exact h (stringDataEq (by rw [he]))

lemma contains_colon_append (u p : List Char) : (u ++ ':' :: p).contains ':' = true := by
  induction u with
  | nil => simp
  | cons c rest ih => simp [List.contains_cons, ih]

lemma splitFirstColon_append (u p : List Char) :
    u.contains ':' = false → splitFirstColonAux (u ++ ':' :: p) = (u, p) := by
  induction u with
  | nil =>
    intro
    simp [splitFirstColonAux]
  | cons c rest ih =>
    intro hu
    simp only [List.contains_cons, Bool.or_eq_false_iff, beq_eq_false_iff_ne] at hu
    show splitFirstColonAux (c :: (rest ++ ':' :: p)) = (c :: rest, p)
    simp only [splitFirstColonAux]
    rw [if_neg (fun e => hu.1 e.symm), ih hu.2]

lemma splitFirstColonAux_spec (l : List Char) (h : l.contains ':' = true) :
    l = (splitFirstColonAux l).1 ++ ':' :: (splitFirstColonAux l).2 ∧
    (splitFirstColonAux l).1.contains ':' = false := by
  induction l with
  | nil => simp at h
  | cons c rest ih =>
    by_cases hc : c = ':'
    · subst hc
      simp [splitFirstColonAux]
    · have h' : rest.contains ':' = true := by
        simp only [List.contains_cons, Bool.or_eq_true, beq_iff_eq] at h
        rcases h with h | h
        · exact absurd h.symm hc
        · exact h
      have hs : splitFirstColonAux (c :: rest)
          = (c :: (splitFirstColonAux rest).1, (splitFirstColonAux rest).2) := by
        simp [splitFirstColonAux, hc]
      obtain ⟨ih1, ih2⟩ := ih h'
      constructor
      · rw [hs]
        simpa using congrArg (c :: ·) ih1
      · rw [hs]
        simp only [List.contains_cons, Bool.or_eq_false_iff, beq_eq_false_iff_ne]
        exact ⟨fun e => hc e.symm, ih2⟩

/-! ## Lemmas about the URL and credential shaper -/

lemma get_auth_url_github (url token : String) :
    get_auth_url url token "github"
      = "https://" ++ quote token ++ "@" ++ cleanTransportUrl url := by
  unfold get_auth_url
  rw [if_neg (fun hcon => absurd hcon.1 (by decide)), if_neg (by decide)]

lemma get_auth_url_gitlab (url token : String) :
    get_auth_url url token "gitlab"
      = "https://oauth2:" ++ quote token ++ "@" ++ cleanTransportUrl url := by
  unfold get_auth_url
  rw [if_neg (fun hcon => absurd hcon.1 (by decide)), if_pos (by decide)]

lemma get_auth_url_bitbucket (url token : String) (h : token.data.contains ':' = true) :
    get_auth_url url token "bitbucket"
      = "https://" ++ quote ⟨(splitFirstColonAux token.data).1⟩ ++ ":"
          ++ quote ⟨(splitFirstColonAux token.data).2⟩ ++ "@" ++ cleanTransportUrl url := by
  unfold get_auth_url
  rw [if_pos ⟨rfl, h⟩]

lemma cleanTransportUrl_no_scheme (r : String)
    (h1 : pyContains r "https://" = false) (h2 : pyContains r "http://" = false) :
    cleanTransportUrl r = r := by
  have e1 : pyReplaceL r.data "https://".data [] = r.data :=
    pyReplaceL_not_contains _ _ [] (by decide) h1
  have e2 : pyReplaceL r.data "http://".data [] = r.data :=
    pyReplaceL_not_contains _ _ [] (by decide) h2
  apply stringDataEq
  show pyReplaceL (pyReplaceL r.data "https://".data []) "http://".data [] = r.data
  rw [e1, e2]

lemma cleanTransportUrl_https (r : String)
    (h1 : pyContains r "https://" = false) (h2 : pyContains r "http://" = false) :
    cleanTransportUrl ("https://" ++ r) = r := by
  have hb := pyReplaceL_boundary "https://".data [] (by decide) [] r.data rfl h1
  simp only [List.nil_append] at hb
  have e2 : pyReplaceL r.data "http://".data [] = r.data :=
    pyReplaceL_not_contains _ _ [] (by decide) h2
  apply stringDataEq
  show pyReplaceL (pyReplaceL ("https://" ++ r).data "https://".data []) "http://".data []
      = r.data
  rw [String.data_append, hb, e2]

lemma cleanTransportUrl_http (r : String)
    (h1 : pyContains r "https://" = false) (h2 : pyContains r "http://" = false) :
    cleanTransportUrl ("http://" ++ r) = r := by
  have hx : containsSubAux "https://".data ("http://".data ++ r.data) = false := by
    rw [containsSub_http_https]
    exact h1
  have e1 : pyReplaceL ("http://".data ++ r.data) "https://".data []
      = "http://".data ++ r.data :=
    pyReplaceL_not_contains _ _ [] (by decide) hx
  have hb := pyReplaceL_boundary "http://".data [] (by decide) [] r.data rfl h2
  simp only [List.nil_append] at hb
  apply stringDataEq
  show pyReplaceL (pyReplaceL ("http://" ++ r).data "https://".data []) "http://".data []
      = r.data
  rw [String.data_append, e1, hb]

lemma get_auth_url_congr (u₁ u₂ token provider : String)
    (h : cleanTransportUrl u₁ = cleanTransportUrl u₂) :
    get_auth_url u₁ token provider = get_auth_url u₂ token provider := by
  unfold get_auth_url
  rw [h]

/-! ## Lemmas about `normalize_branches` -/

lemma normalizeBranchesLoop_eq_dedup (xs : List String) :
    ∀ seen, normalizeBranchesLoop xs seen
      = dedupFirstAux ((xs.map pyStrip).filter (fun s => s != "")) seen := by
  induction xs with
  | nil => intro seen; rfl
  | cons x rest ih =>
    intro seen
    by_cases hb : pyStrip x = ""
    · simp only [normalizeBranchesLoop, List.map_cons, List.filter_cons, hb]
      simp [ih]
    · by_cases hs : seen.contains (pyStrip x)
      · simp only [normalizeBranchesLoop, List.map_cons, List.filter_cons]
        rw [if_pos (Or.inr hs), show ((pyStrip x != "") = true) from by simp [hb]]
        simp only [dedupFirstAux]
        rw [if_pos hs]
        exact ih seen
      · simp only [normalizeBranchesLoop, List.map_cons, List.filter_cons]
        rw [if_neg (by
          intro hcon
          rcases hcon with hcon | hcon
          · exact hb hcon
          · exact hs hcon)]
        rw [show ((pyStrip x != "") = true) from by simp [hb]]
        simp only [dedupFirstAux]
        rw [if_neg hs]
        exact congrArg (pyStrip x :: ·) (ih (pyStrip x :: seen))

lemma dedupFirstAux_nodup (xs : List String) :
    ∀ seen, (dedupFirstAux xs seen).Nodup ∧
      ∀ y ∈ dedupFirstAux xs seen, seen.contains y = false := by
  induction xs with
  | nil => intro seen; exact ⟨List.nodup_nil, by intro y hy; cases hy⟩
  | cons x rest ih =>
    intro seen
    simp only [dedupFirstAux]
    by_cases hs : seen.contains x
    · rw [if_pos hs]
      exact ih seen
    · rw [if_neg hs]
      obtain ⟨ihn, ihm⟩ := ih (x :: seen)
      constructor
      · refine List.nodup_cons.mpr ⟨?_, ihn⟩
        intro hmem
        have := ihm x hmem
        simp [List.contains_cons] at this
      · intro y hy
        rcases List.mem_cons.mp hy with rfl | hy
        · simpa using hs
        · have := ihm y hy
          simp only [List.contains_cons, Bool.or_eq_false_iff] at this
          exact this.2

/-! ## Claim theorems: URL shaper, redaction, branch normalization -/

/-- C7: `normalize_branches` trims every entry, discards empties, removes
duplicates keeping the first occurrence, and preserves first-occurrence
order; equivalently it equals first-occurrence de-duplication of the
trimmed, empties-filtered input, and its output has no duplicates. -/
theorem claim_C7_normalize_branches (value : List String) :
    normalize_branches value
      = dedupFirst ((value.map pyStrip).filter (fun s => s != "")) ∧
    (normalize_branches value).Nodup := by
  have he : normalize_branches value
      = dedupFirst ((value.map pyStrip).filter (fun s => s != "")) :=
    normalizeBranchesLoop_eq_dedup value []
  refine ⟨he, ?_⟩
  rw [he]
  exact (dedupFirstAux_nodup _ []).1

/-- C6: the auth URL shaper yields `https://<quoted token>@<cleaned url>`
for github, `https://oauth2:<quoted token>@<cleaned url>` for gitlab, and
for a bitbucket token containing a colon it splits at the first colon into
username and app password, percent-encodes both halves, and yields
`https://user:pass@<cleaned url>`. -/
theorem claim_C6_auth_url_formats (url token : String) :
    get_auth_url url token "github"
      = "https://" ++ quote token ++ "@" ++ cleanTransportUrl url ∧
    get_auth_url url token "gitlab"
      = "https://oauth2:" ++ quote token ++ "@" ++ cleanTransportUrl url ∧
    (token.data.contains ':' = true →
      ∃ u p : String, token = u ++ ":" ++ p ∧ u.data.contains ':' = false ∧
        get_auth_url url token "bitbucket"
          = "https://" ++ quote u ++ ":" ++ quote p ++ "@" ++ cleanTransportUrl url) := by
  refine ⟨get_auth_url_github url token, get_auth_url_gitlab url token, ?_⟩
  intro h
  obtain ⟨hsplit, hleft⟩ := splitFirstColonAux_spec token.data h
  refine ⟨⟨(splitFirstColonAux token.data).1⟩, ⟨(splitFirstColonAux token.data).2⟩,
    ?_, hleft, get_auth_url_bitbucket url token h⟩
  apply stringDataEq
  rw [String.data_append, String.data_append]
  simpa using hsplit

/-- Witness for C6 at a concrete bitbucket-style token. -/
theorem claim_C6_auth_url_formats_witness :
    get_auth_url "bitbucket.org/w/s" "user:pass" "github"
      = "https://" ++ quote "user:pass" ++ "@" ++ cleanTransportUrl "bitbucket.org/w/s" ∧
    (∃ u p : String, ("user:pass" : String) = u ++ ":" ++ p ∧ u.data.contains ':' = false ∧
      get_auth_url "bitbucket.org/w/s" "user:pass" "bitbucket"
        = "https://" ++ quote u ++ ":" ++ quote p ++ "@" ++ cleanTransportUrl "bitbucket.org/w/s") := by
  obtain ⟨h1, _, h3⟩ := claim_C6_auth_url_formats "bitbucket.org/w/s" "user:pass"
  exact ⟨h1, h3 (by decide)⟩

/-- C10: every shaped auth URL begins with `https://`; an `http://` input
is upgraded to `https`; and occurrences of `https://` / `http://` are
removed from anywhere in the input (not only as a prefix) before the
credential is attached. -/
theorem claim_C10_https_upgrade :
    (∀ url token provider : String,
      pyStartsWith (get_auth_url url token provider) "https://" = true) ∧
    (∀ r token provider : String,
      pyContains r "https://" = false → pyContains r "http://" = false →
      get_auth_url ("http://" ++ r) token provider
          = get_auth_url ("https://" ++ r) token provider ∧
      get_auth_url ("https://" ++ r) token provider
          = get_auth_url r token provider) ∧
    get_auth_url "github.com/owner/https://repo" "tok" "github"
      = "https://tok@github.com/owner/repo" := by
  refine ⟨?_, ?_, by decide⟩
  · intro url token provider
    unfold pyStartsWith get_auth_url
    split
    · simp only [String.data_append]
      exact isPrefixOf_append_of _ (isPrefixOf_append_of _ (isPrefixOf_append_of _
        (isPrefixOf_append_of _ (isPrefixOf_append_self _ _))))
    · split
      · simp only [String.data_append]
        exact isPrefixOf_append_of _ (isPrefixOf_append_of _ (isPrefixOf_append_of _
          (by decide)))
      · simp only [String.data_append]
        exact isPrefixOf_append_of _ (isPrefixOf_append_of _ (isPrefixOf_append_self _ _))
  · intro r token provider h1 h2
    constructor
    · exact get_auth_url_congr _ _ token provider
        ((cleanTransportUrl_http r h1 h2).trans (cleanTransportUrl_https r h1 h2).symm)
    · exact get_auth_url_congr _ _ token provider
        ((cleanTransportUrl_https r h1 h2).trans (cleanTransportUrl_no_scheme r h1 h2).symm)

/-- Witness for C10 at a concrete schemeless remainder. -/
theorem claim_C10_https_upgrade_witness :
    get_auth_url ("http://" ++ "github.com/a/b") "tok" "github"
      = get_auth_url ("https://" ++ "github.com/a/b") "tok" "github" ∧
    get_auth_url ("https://" ++ "github.com/a/b") "tok" "github"
      = get_auth_url "github.com/a/b" "tok" "github" :=
  claim_C10_https_upgrade.2.1 "github.com/a/b" "tok" "github" (by decide) (by decide)

/-- C3 counterexample: redacting the shaped URL is NOT character-for-character
equal to shaping with the literal token `***`, because the shaper
percent-encodes `***` into `%2A%2A%2A`. -/
theorem claim_C3_counterexample :
    ¬ (redact_sensitive (get_auth_url "github.com/o/r" "abc" "github") ["abc"]
        = get_auth_url "github.com/o/r" "***" "github") := by
  decide

/-- C3 (amended): redacting the shaped URL splices the literal `***` into
the credential slot — `https://***@…` for github, `https://oauth2:***@…`
for gitlab, and for a bitbucket `user:pass` token the whole credential
(both halves) collapses to a single `***` — whenever the token survives
percent-encoding unchanged and occurs nowhere else in the shaped URL. -/
theorem claim_C3_redact_splice :
    (∀ url token : String, quote token = token → token ≠ "" →
      pyContains ("@" ++ cleanTransportUrl url) token = false →
      earlyOccur token.data "https://".data ("@" ++ cleanTransportUrl url).data = false →
      redact_sensitive (get_auth_url url token "github") [token]
        = "https://***@" ++ cleanTransportUrl url) ∧
    (∀ url token : String, quote token = token → token ≠ "" →
      pyContains ("@" ++ cleanTransportUrl url) token = false →
      earlyOccur token.data "https://oauth2:".data ("@" ++ cleanTransportUrl url).data = false →
      redact_sensitive (get_auth_url url token "gitlab") [token]
        = "https://oauth2:***@" ++ cleanTransportUrl url) ∧
    (∀ url u p : String, quote u = u → quote p = p → u.data.contains ':' = false →
      pyContains ("@" ++ cleanTransportUrl url) (u ++ ":" ++ p) = false →
      earlyOccur (u ++ ":" ++ p).data "https://".data ("@" ++ cleanTransportUrl url).data
          = false →
      redact_sensitive (get_auth_url url (u ++ ":" ++ p) "bitbucket") [u ++ ":" ++ p]
        = "https://***@" ++ cleanTransportUrl url) := by
  have hred : ∀ (text token : String), token ≠ "" →
      redact_sensitive text [token] = pyReplace text token "***" := by
    intro text token hne
    simp [redact_sensitive, hne]
  have hsplice : ∀ (pre mid : String) (token : String), token ≠ "" →
      pyContains ("@" ++ mid) token = false →
      earlyOccur token.data pre.data ("@" ++ mid).data = false →
      pyReplace (pre ++ token ++ "@" ++ mid) token "***"
        = (pre ++ "***" ++ "@" ++ mid) := by
    intro pre mid token hne hnc hne2
    apply stringDataEq
    show pyReplaceL (pre ++ token ++ "@" ++ mid).data token.data "***".data
        = (pre ++ "***" ++ "@" ++ mid).data
    have hsh : (pre ++ token ++ "@" ++ mid).data
        = pre.data ++ token.data ++ ("@" ++ mid).data := by
      simp [String.data_append, List.append_assoc]
    have hsh2 : (pre ++ "***" ++ "@" ++ mid).data
        = pre.data ++ ("***".data ++ ("@" ++ mid).data) := by
      simp [String.data_append, List.append_assoc]
    rw [hsh, hsh2]
    exact pyReplaceL_boundary token.data "***".data
      (fun he => hne (stringDataEq (by simpa using he))) pre.data ("@" ++ mid).data
      hne2 hnc
  refine ⟨?_, ?_, ?_⟩
  · intro url token henc hne hnc hne2
    rw [hred _ _ hne, get_auth_url_github, henc]
    rw [hsplice "https://" (cleanTransportUrl url) token hne hnc hne2]
    apply stringDataEq
    simp [String.data_append]
  · intro url token henc hne hnc hne2
    rw [hred _ _ hne, get_auth_url_gitlab, henc]
    rw [hsplice "https://oauth2:" (cleanTransportUrl url) token hne hnc hne2]
    apply stringDataEq
    simp [String.data_append]
  · intro url u p hu hp hcolon hnc hne2
    have tokend : (u ++ ":" ++ p).data = u.data ++ ':' :: p.data := by
      simp [String.data_append]
    have hne : (u ++ ":" ++ p) ≠ "" := by
      intro hcon
      have := congrArg String.data hcon
      rw [tokend] at this
      simp at this
    have hcol : (u ++ ":" ++ p).data.contains ':' = true := by
      rw [tokend]
      exact contains_colon_append u.data p.data
    have hsp : splitFirstColonAux (u ++ ":" ++ p).data = (u.data, p.data) := by
      rw [tokend]
      exact splitFirstColon_append u.data p.data hcolon
    rw [hred _ _ hne, get_auth_url_bitbucket url (u ++ ":" ++ p) hcol, hsp]
    rw [show (⟨(u.data, p.data).1⟩ : String) = u from rfl,
        show (⟨(u.data, p.data).2⟩ : String) = p from rfl, hu, hp]
    rw [show "https://" ++ u ++ ":" ++ p ++ "@" ++ cleanTransportUrl url
        = "https://" ++ (u ++ ":" ++ p) ++ "@" ++ cleanTransportUrl url from by
      apply stringDataEq
      simp [String.data_append]]
    rw [hsplice "https://" (cleanTransportUrl url) (u ++ ":" ++ p) hne hnc hne2]
    apply stringDataEq
    simp [String.data_append]

/-! ## Lemmas about the REST pagination loops -/

lemma request_json_trace (net : Net) (m u : String) (p : List (String × JVal))
    (b : Option JVal) : (request_json net m u p b).trace = [⟨m, u, p, b⟩] := by
  unfold request_json
  cases h : net ⟨m, u, p, b⟩ with
  | error e => rfl
  | ok r =>
    simp only []
    split <;> rfl

lemma request_json_ok {net : Net} {m u : String} {p : List (String × JVal)}
    {b : Option JVal} {v : JVal} (h : (request_json net m u p b).result = .ok v) :
    ∃ r, net ⟨m, u, p, b⟩ = .ok r ∧ r.status < 400 ∧ jsonPayload r = v := by
  unfold request_json at h
  cases hn : net ⟨m, u, p, b⟩ with
  | error e =>
    rw [hn] at h
    simp at h
  | ok r =>
    rw [hn] at h
    simp only [] at h
    rw [apply_ite MRes.result] at h
    split at h
    · simp at h
    · simp only [MRes.result] at h
      refine ⟨r, rfl, by omega, ?_⟩
      exact Except.ok.inj h

lemma request_json_of_ok {net : Net} {m u : String} {p : List (String × JVal)}
    {b : Option JVal} {r : RestResp} (h : net ⟨m, u, p, b⟩ = .ok r)
    (hs : r.status < 400) :
    request_json net m u p b = ⟨[⟨m, u, p, b⟩], .ok (jsonPayload r)⟩ := by
  unfold request_json
  rw [h]
  dsimp only
  rw [if_neg (by omega)]

lemma request_json_of_httpError {net : Net} {m u : String} {p : List (String × JVal)}
    {b : Option JVal} {r : RestResp} (h : net ⟨m, u, p, b⟩ = .ok r)
    (hs : 400 ≤ r.status) :
    (request_json net m u p b).trace = [⟨m, u, p, b⟩] ∧
    ∃ e, (request_json net m u p b).result = .error e := by
  unfold request_json
  rw [h]
  dsimp only
  rw [if_pos (by omega)]
  exact ⟨rfl, _, rfl⟩

lemma request_raw_of_ok {net : Net} {m u : String} {p : List (String × JVal)}
    {b : Option JVal} {r : RestResp} (h : net ⟨m, u, p, b⟩ = .ok r) :
    request_raw net m u p b = ⟨[⟨m, u, p, b⟩], .ok r⟩ := by
  unfold request_raw
  rw [h]

lemma chainFullPage_cons {net : Net} {req : RestReq} {t : List RestReq}
    (hp : ∃ r items, net req = .ok r ∧ r.status < 400 ∧ jsonPayload r = .arr items ∧
      100 ≤ items.length)
    (ht : chainFullPage net t) : chainFullPage net (req :: t) := by
  cases t with
  | nil => trivial
  | cons x rest => exact ⟨hp, ht⟩

lemma chainNextCursor_cons {net : Net} {req : RestReq} {t : List RestReq}
    (hp : ∃ r fields nurl, net req = .ok r ∧ r.status < 400 ∧ jsonPayload r = .obj fields ∧
      (fields.lookup "next").getD .null = .s nurl ∧ nurl ≠ "")
    (ht : chainNextCursor net t) : chainNextCursor net (req :: t) := by
  cases t with
  | nil => trivial
  | cons x rest => exact ⟨hp, ht⟩

lemma getAttr_ok {j : JVal} {k : String} {d v : JVal} (h : getAttr j k d = .ok v) :
    ∃ fields, j = .obj fields ∧ v = (fields.lookup k).getD d := by
  cases j <;> simp [getAttr] at h
  case obj fields => exact ⟨fields, rfl, h.symm⟩

lemma pagedLoop_trace_le (net : Net) (url : String) (params : Nat → List (String × JVal))
    (process : List JVal → Except String (List JVal)) :
    ∀ (fuel page : Nat),
      (pagedLoop net url params process page fuel).trace.length ≤ fuel := by
  intro fuel
  induction fuel with
  | zero => intro page; simp [pagedLoop]
  | succ g ih =>
    intro page
    simp only [pagedLoop]
    split
    · simp [request_json_trace]
    · split
      · split
        · split
          · simp [request_json_trace]
          · split
            · simp [request_json_trace]
            · simp only [request_json_trace, List.length_append, List.length_cons,
                List.length_nil]
              have := ih (page + 1)
              omega
        · simp [request_json_trace]
      · simp [request_json_trace]

lemma pagedLoop_chain (net : Net) (url : String) (params : Nat → List (String × JVal))
    (process : List JVal → Except String (List JVal)) :
    ∀ (fuel page : Nat),
      chainFullPage net (pagedLoop net url params process page fuel).trace := by
  intro fuel
  induction fuel with
  | zero => intro page; simp [pagedLoop, chainFullPage]
  | succ g ih =>
    intro page
    simp only [pagedLoop]
    split
    · simp only [request_json_trace]
      trivial
    · rename_i payload hres
      split
      · rename_i htruthy
        split
        · rename_i items
          split
          · simp only [request_json_trace]
            trivial
          · split
            · simp only [request_json_trace]
              trivial
            · rename_i kept hkept hlen
              simp only [request_json_trace, List.cons_append, List.nil_append]
              apply chainFullPage_cons
              · obtain ⟨r, hnet, hstat, hpay⟩ := request_json_ok hres
                exact ⟨r, items, hnet, hstat, by rw [hpay], by omega⟩
              · exact ih (page + 1)
        · simp only [request_json_trace]
          trivial
      · simp only [request_json_trace]
        trivial

lemma bitbucketLoop_trace_le (net : Net) :
    ∀ (fuel : Nat) (url : String) (params : List (String × JVal)),
      (bitbucketLoop net fuel url params).trace.length ≤ fuel := by
  intro fuel
  induction fuel with
  | zero => intro url params; simp [bitbucketLoop]
  | succ g ih =>
    intro url params
    simp only [bitbucketLoop]
    split
    · simp [request_json_trace]
    · split
      · simp [request_json_trace]
      · split
        · simp [request_json_trace]
        · rename_i nurl hnext
          split
          · simp only [request_json_trace, List.length_append, List.length_cons,
              List.length_nil]
            have := ih nurl []
            omega
          · simp [request_json_trace]
        · split
          · simp [request_json_trace]
          · simp [request_json_trace]

lemma bitbucketLoop_chain (net : Net) :
    ∀ (fuel : Nat) (url : String) (params : List (String × JVal)),
      chainNextCursor net (bitbucketLoop net fuel url params).trace := by
  intro fuel
  induction fuel with
  | zero => intro url params; simp [bitbucketLoop, chainNextCursor]
  | succ g ih =>
    intro url params
    simp only [bitbucketLoop]
    split
    · simp only [request_json_trace]
      trivial
    · rename_i payload hres
      split
      · simp only [request_json_trace]
        trivial
      · rename_i values hvalues
        split
        · simp only [request_json_trace]
          trivial
        · rename_i nurl hnext
          split
          · rename_i hne
            simp only [request_json_trace, List.cons_append, List.nil_append]
            apply chainNextCursor_cons
            · obtain ⟨r, hnet, hstat, hpay⟩ := request_json_ok hres
              obtain ⟨fields, hobj, hv⟩ := getAttr_ok hnext
              refine ⟨r, fields, nurl, hnet, hstat, by rw [hpay, hobj], hv.symm, ?_⟩
              simpa using hne
            · exact ih nurl []
          · simp only [request_json_trace]
            trivial
        · split
          · simp only [request_json_trace]
            trivial
          · simp only [request_json_trace]
            trivial

/-- C5: every paginated listing issues at most 10 page requests, and each
request before the last was caused by a full page (GitHub/GitLab: an HTTP
success carrying a list of at least 100 items) or, for Bitbucket, by a
truthy `next` cursor in the previous payload. -/
theorem claim_C5_pagination_cap (net : Net) (c : RepoContext) (url : String)
    (params : List (String × JVal)) :
    ((list_github_issues net c).trace.length ≤ 10 ∧
      chainFullPage net (list_github_issues net c).trace) ∧
    ((list_gitlab_issues net c).trace.length ≤ 10 ∧
      chainFullPage net (list_gitlab_issues net c).trace) ∧
    ((bitbucket_paginated_get net url params).trace.length ≤ 10 ∧
      chainNextCursor net (bitbucket_paginated_get net url params).trace) := by
  refine ⟨?_, ?_, ?_⟩
  · unfold list_github_issues
    split
    · exact ⟨by simp, by trivial⟩
    · split
      · exact ⟨by simp, by trivial⟩
      · exact ⟨pagedLoop_trace_le net _ _ _ 10 1, pagedLoop_chain net _ _ _ 10 1⟩
  · unfold list_gitlab_issues
    split
    · exact ⟨by simp, by trivial⟩
    · split
      · exact ⟨by simp, by trivial⟩
      · exact ⟨pagedLoop_trace_le net _ _ _ 10 1, pagedLoop_chain net _ _ _ 10 1⟩
  · unfold bitbucket_paginated_get
    exact ⟨bitbucketLoop_trace_le net 10 _ _, bitbucketLoop_chain net 10 _ _⟩

/-! ## Lemmas about the per-item migration loops -/

lemma migrateIssuesLoop_counts (net : Net) (dst : RepoContext) (prov : String) :
    ∀ (items : List JVal) (c0 f0 c f : Nat),
      (migrateIssuesLoop net dst prov items c0 f0).result = .ok (c, f) →
      c + f = c0 + f0 + items.length := by
  intro items
  induction items with
  | nil =>
    intro c0 f0 c f h
    simp only [migrateIssuesLoop] at h
    cases h
    simp
  | cons item rest ih =>
    intro c0 f0 c f h
    simp only [migrateIssuesLoop] at h
    split at h
    · simp at h
    · split at h
      · simp only [] at h
        have := ih (c0 + 1) f0 c f h
        simp only [List.length_cons]
        omega
      · simp only [] at h
        have := ih c0 (f0 + 1) c f h
        simp only [List.length_cons]
        omega

lemma migratePrsLoop_counts (net : Net) (dst : RepoContext) (prov : String) :
    ∀ (items : List JVal) (c0 s0 f0 c s f : Nat),
      (migratePrsLoop net dst prov items c0 s0 f0).result = .ok (c, s, f) →
      c + s + f = c0 + s0 + f0 + items.length := by
  intro items
  induction items with
  | nil =>
    intro c0 s0 f0 c s f h
    simp only [migratePrsLoop] at h
    cases h
    simp
  | cons item rest ih =>
    intro c0 s0 f0 c s f h
    simp only [migratePrsLoop] at h
    split at h
    · simp at h
    · split at h
      · have := ih c0 (s0 + 1) f0 c s f h
        simp only [List.length_cons]
        omega
      · split at h
        · simp only [] at h
          have := ih (c0 + 1) s0 f0 c s f h
          simp only [List.length_cons]
          omega
        · simp only [] at h
          have := ih c0 s0 (f0 + 1) c s f h
          simp only [List.length_cons]
          omega

lemma migrateUsersLoop_counts (net : Net) (dst : RepoContext)
    (dstBB : Option (List String)) :
    ∀ (names mapped unmapped m u : List String),
      (migrateUsersLoop net dst dstBB names mapped unmapped).result = .ok (m, u) →
      m.length + u.length = mapped.length + unmapped.length + names.length := by
  intro names
  induction names with
  | nil =>
    intro mapped unmapped m u h
    simp only [migrateUsersLoop] at h
    cases h
    simp
  | cons username rest ih =>
    intro mapped unmapped m u h
    simp only [migrateUsersLoop] at h
    split at h
    · simp only [] at h
      have := ih (mapped ++ [username]) unmapped m u h
      simp only [List.length_append, List.length_cons, List.length_nil] at this ⊢
      omega
    · simp only [] at h
      have := ih mapped (unmapped ++ [username]) m u h
      simp only [List.length_append, List.length_cons, List.length_nil] at this ⊢
      omega
    · simp only [] at h
      have := ih mapped (unmapped ++ [username]) m u h
      simp only [List.length_append, List.length_cons, List.length_nil] at this ⊢
      omega

lemma migrateIssuesFinish_counts (net : Net) (dst : RepoContext) (prov : String)
    (listed : MRes (List JVal)) (sc cr fl : Nat)
    (h : (migrateIssuesFinish net dst prov listed).result = .ok (.issuesDone sc cr fl)) :
    cr + fl = sc := by
  unfold migrateIssuesFinish at h
  split at h
  · simp at h
  · rename_i items hitems
    split at h
    · simp at h
    · rename_i counters hloop
      simp only [] at h
      cases h
      have := migrateIssuesLoop_counts net dst prov items 0 0
        counters.1 counters.2 (by rw [hloop])
      omega

lemma migratePrsFinish_counts (net : Net) (dst : RepoContext) (prov : String)
    (listed : MRes (List JVal)) (sc cr sk fl : Nat)
    (h : (migratePrsFinish net dst prov listed).result = .ok (.prsDone sc cr sk fl)) :
    cr + sk + fl = sc := by
  unfold migratePrsFinish at h
  split at h
  · simp at h
  · rename_i items hitems
    split at h
    · simp at h
    · rename_i counters hloop
      simp only [] at h
      cases h
      have := migratePrsLoop_counts net dst prov items 0 0 0
        counters.1 counters.2.1 counters.2.2 (by rw [hloop])
      omega

lemma migrateUsersFinish_counts (net : Net) (dst : RepoContext)
    (listed : MRes (List String)) (sc mc uc : Nat) (ms us : List String) (note : String)
    (h : (migrateUsersFinish net dst listed).result = .ok (.usersDone sc mc uc ms us note)) :
    mc + uc = sc ∧ ∃ mapped unmapped : List String,
      mc = mapped.length ∧ uc = unmapped.length ∧
      ms = mapped.take 20 ∧ us = unmapped.take 20 := by
  unfold migrateUsersFinish at h
  split at h
  · simp at h
  · rename_i users husers
    split at h
    · split at h
      · simp at h
      · rename_i dusers hdl
        split at h
        · simp at h
        · rename_i lists hloop
          simp only [] at h
          cases h
          have := migrateUsersLoop_counts net dst (some dusers) users [] []
            lists.1 lists.2 (by rw [hloop])
          simp only [List.length_nil] at this
          exact ⟨by omega, lists.1, lists.2, rfl, rfl, rfl, rfl⟩
    · split at h
      · simp at h
      · rename_i lists hloop
        simp only [] at h
        cases h
        have := migrateUsersLoop_counts net dst none users [] []
          lists.1 lists.2 (by rw [hloop])
        simp only [List.length_nil] at this
        exact ⟨by omega, lists.1, lists.2, rfl, rfl, rfl, rfl⟩

/-- C9: the counters of every completed metadata action partition the
source items: `created + failed = source_count` for issues,
`created + skipped + failed = source_count` for pull requests,
`mapped_count + unmapped_count = source_count` for users, and the user
samples are 20-element prefixes of the underlying mapped/unmapped lists. -/
theorem claim_C9_counters (net : Net) (src dst : RepoContext) :
    (∀ sc cr fl, (migrate_issues net src dst).result = .ok (.issuesDone sc cr fl) →
      cr + fl = sc) ∧
    (∀ sc cr sk fl,
      (migrate_pull_requests net src dst).result = .ok (.prsDone sc cr sk fl) →
      cr + sk + fl = sc) ∧
    (∀ sc mc uc ms us note,
      (migrate_users net src dst).result = .ok (.usersDone sc mc uc ms us note) →
      mc + uc = sc ∧ ∃ mapped unmapped : List String,
        mc = mapped.length ∧ uc = unmapped.length ∧
        ms = mapped.take 20 ∧ us = unmapped.take 20) := by
  refine ⟨?_, ?_, ?_⟩
  · intro sc cr fl h
    unfold migrate_issues at h
    split at h
    · exact migrateIssuesFinish_counts net dst src.provider _ sc cr fl h
    · simp at h
  · intro sc cr sk fl h
    unfold migrate_pull_requests at h
    split at h
    · exact migratePrsFinish_counts net dst src.provider _ sc cr sk fl h
    · simp at h
  · intro sc mc uc ms us note h
    unfold migrate_users at h
    split at h
    · exact migrateUsersFinish_counts net dst _ sc mc uc ms us note h
    · simp at h

/-- Witness for C9 at the concrete close-failure scenario. -/
theorem claim_C9_counters_witness :
    ((migrate_issues netCloseFails ctxGitlabSrc ctxGitlabDst).result
        = .ok (.issuesDone 1 0 1) ∧ 0 + 1 = 1) ∧
    ((migrate_pull_requests netCloseFails ctxGitlabSrc ctxGitlabDst).result
        = .ok (.prsDone 1 0 1 0) ∧ 0 + 1 + 0 = 1) ∧
    ((migrate_users netCloseFails ctxGitlabSrc ctxGitlabDst).result
        = .ok (.usersDone 0 0 0 [] [] usersNote) ∧ 0 + 0 = 0) := by
  have h1 : (migrate_issues netCloseFails ctxGitlabSrc ctxGitlabDst).result
      = .ok (.issuesDone 1 0 1) := by rfl
  have h2 : (migrate_pull_requests netCloseFails ctxGitlabSrc ctxGitlabDst).result
      = .ok (.prsDone 1 0 1 0) := by rfl
  have h3 : (migrate_users netCloseFails ctxGitlabSrc ctxGitlabDst).result
      = .ok (.usersDone 0 0 0 [] [] usersNote) := by rfl
  refine ⟨⟨h1, ?_⟩, ⟨h2, ?_⟩, ⟨h3, ?_⟩⟩
  · exact (claim_C9_counters netCloseFails ctxGitlabSrc ctxGitlabDst).1 1 0 1 h1
  · exact (claim_C9_counters netCloseFails ctxGitlabSrc ctxGitlabDst).2.1 1 0 1 0 h2
  · exact ((claim_C9_counters netCloseFails ctxGitlabSrc ctxGitlabDst).2.2
      0 0 0 [] [] usersNote h3).1

/-- C2 counterexample: a single closed source issue is created at the
destination (POST) and the close call (PUT) answers HTTP 500; the item is
counted as `failed`, not `created`, contradicting the claim that a failed
close still counts the item as created. -/
theorem claim_C2_counterexample :
    (migrate_issues netCloseFails ctxGitlabSrc ctxGitlabDst).trace.map RestReq.method
      = ["GET", "POST", "PUT"] ∧
    netCloseFails ⟨"PUT", "https://gitlab.com/api/v4/projects/g2%2Fp2/issues/1", [],
      some (.obj [("state_event", .s "close")])⟩ = .ok ⟨500, "boom", .null⟩ ∧
    (migrate_issues netCloseFails ctxGitlabSrc ctxGitlabDst).result
      = .ok (.issuesDone 1 0 1) := by
  refine ⟨by rfl, by rfl, by rfl⟩

/-- C2 (amended): a closed item is created in the default open state first
and closed by a second provider-specific call; but when that close call
fails, the exception propagates out of the create helper, so the per-item
handler counts the item as `failed`, not `created` (shown on the GitLab
issue path).  Only the Bitbucket PR decline ignores the close response's
HTTP status, so there a failed close still counts the item as created. -/
theorem claim_C2_create_then_close :
    (∀ (net : Net) (c : RepoContext) (issue : NormalizedIssue)
        (api_base pid ls : String) (rpost rput : RestResp) (iid : JVal),
      provider_api_base c = .ok api_base →
      c.gitlab_project_id = .ok pid →
      joinComma issue.labels = .ok ls →
      issue.state.isStr "closed" = true →
      net ⟨"POST", api_base ++ "/projects/" ++ pid ++ "/issues", [],
        some (.obj [("title", issue.title), ("description", pyOrEmptyStr issue.description),
          ("labels", .s ls)])⟩ = .ok rpost →
      rpost.status < 400 →
      getItem (jsonPayload rpost) "iid" = .ok iid →
      net ⟨"PUT", api_base ++ "/projects/" ++ pid ++ "/issues/" ++ pyStr iid, [],
        some (.obj [("state_event", .s "close")])⟩ = .ok rput →
      400 ≤ rput.status →
      (create_gitlab_issue net c issue).trace.map RestReq.method = ["POST", "PUT"] ∧
      ∃ e, (create_gitlab_issue net c issue).result = .error e) ∧
    (∀ (net : Net) (src dst : RepoContext) (item : JVal) (ni : NormalizedIssue),
      metadata_supported src dst = true → src.provider = "gitlab" →
      dst.provider = "gitlab" →
      (list_gitlab_issues net src).result = .ok [item] →
      normalize_issue_from_source "gitlab" item = .ok ni →
      (∃ e, (create_gitlab_issue net dst ni).result = .error e) →
      (migrate_issues net src dst).result = .ok (.issuesDone 1 0 1)) ∧
    (∀ (net : Net) (c : RepoContext) (pr : NormalizedPR)
        (api_base rp : String) (rpost rdecl : RestResp) (iid : JVal),
      provider_api_base c = .ok api_base →
      c.bitbucket_repo_path = .ok rp →
      pr.state.isStr "closed" = true →
      net ⟨"POST", api_base ++ "/repositories/" ++ rp ++ "/pullrequests", [],
        some (.obj [("title", pr.title), ("description", pyOrEmptyStr pr.description),
          ("source", .obj [("branch", .obj [("name", pr.source_branch)])]),
          ("destination", .obj [("branch", .obj [("name", pr.target_branch)])])])⟩
        = .ok rpost →
      rpost.status < 400 →
      getItem (jsonPayload rpost) "id" = .ok iid →
      net ⟨"POST", api_base ++ "/repositories/" ++ rp ++ "/pullrequests/" ++ pyStr iid
        ++ "/decline", [], none⟩ = .ok rdecl →
      (create_bitbucket_pr net c pr).result = .ok ()) := by
  refine ⟨?_, ?_, ?_⟩
  · intro net c issue api_base pid ls rpost rput iid hbase hpid hjoin hclosed hpost
      hpostlt hiid hput hputge
    unfold create_gitlab_issue
    rw [hbase]
    dsimp only
    rw [hpid]
    dsimp only
    rw [hjoin]
    dsimp only
    rw [request_json_of_ok hpost hpostlt]
    dsimp only
    rw [if_pos hclosed, hiid]
    dsimp only
    obtain ⟨htr, e, herr⟩ := request_json_of_httpError hput hputge
    rw [htr, herr]
    exact ⟨by simp, e, by simp [Except.map]⟩
  · intro net src dst item ni hsup hsrc hdst hlist hnorm hfail
    obtain ⟨e, he⟩ := hfail
    unfold migrate_issues
    rw [if_pos hsup, hsrc]
    rw [if_neg (by decide), if_pos rfl]
    unfold migrateIssuesFinish
    rw [hlist]
    dsimp only
    simp only [migrateIssuesLoop]
    rw [hnorm]
    dsimp only
    rw [hdst]
    rw [if_neg (by decide), if_pos rfl, he]
    dsimp only
    simp [migrateIssuesLoop]
  · intro net c pr api_base rp rpost rdecl iid hbase hrp hclosed hpost hpostlt hiid hdecl
    unfold create_bitbucket_pr
    rw [hbase]
    dsimp only
    rw [hrp]
    dsimp only
    rw [request_json_of_ok hpost hpostlt]
    dsimp only
    rw [if_pos hclosed, hiid]
    dsimp only
    rw [request_raw_of_ok hdecl]
    simp [Except.map]

/-- Witness for C2 (amended) at the concrete close-failure scenarios. -/
theorem claim_C2_create_then_close_witness :
    ((create_gitlab_issue netCloseFails ctxGitlabDst
        ⟨.s "B", .s "", .s "closed", .arr []⟩).trace.map RestReq.method
      = ["POST", "PUT"] ∧
     ∃ e, (create_gitlab_issue netCloseFails ctxGitlabDst
        ⟨.s "B", .s "", .s "closed", .arr []⟩).result = .error e) ∧
    (migrate_issues netCloseFails ctxGitlabSrc ctxGitlabDst).result
      = .ok (.issuesDone 1 0 1) ∧
    (create_bitbucket_pr netDeclineFails ctxBitbucketDst
        ⟨.s "P", .s "", .s "feat", .s "main", .s "closed", .b false⟩).result
      = .ok () := by
  refine ⟨?_, ?_, ?_⟩
  · exact claim_C2_create_then_close.1 netCloseFails ctxGitlabDst
      ⟨.s "B", .s "", .s "closed", .arr []⟩ "https://gitlab.com/api/v4" "g2%2Fp2" ""
      ⟨201, "x", .obj [("iid", .n 1)]⟩ ⟨500, "boom", .null⟩ (.n 1)
      (by rfl) (by rfl) (by rfl) (by rfl) (by rfl) (by decide) (by rfl) (by rfl) (by decide)
  · exact claim_C2_create_then_close.2.1 netCloseFails ctxGitlabSrc ctxGitlabDst
      (.obj [("title", .s "B"), ("state", .s "closed")])
      ⟨.s "B", .s "", .s "closed", .arr []⟩
      (by rfl) (by rfl) (by rfl) (by rfl) (by rfl) ⟨_, by rfl⟩
  · exact claim_C2_create_then_close.2.2 netDeclineFails ctxBitbucketDst
      ⟨.s "P", .s "", .s "feat", .s "main", .s "closed", .b false⟩
      "https://api.bitbucket.org/2.0" "w/s"
      ⟨201, "x", .obj [("id", .n 3)]⟩ ⟨500, "boom", .null⟩ (.n 3)
      (by rfl) (by rfl) (by rfl) (by rfl) (by decide) (by rfl) (by rfl)

/-- Witness for C3 (amended) at concrete tokens for all three providers. -/
theorem claim_C3_redact_splice_witness :
    redact_sensitive (get_auth_url "github.com/o/r" "abc" "github") ["abc"]
      = "https://***@" ++ cleanTransportUrl "github.com/o/r" ∧
    redact_sensitive (get_auth_url "gitlab.com/g/p" "tok9" "gitlab") ["tok9"]
      = "https://oauth2:***@" ++ cleanTransportUrl "gitlab.com/g/p" ∧
    redact_sensitive (get_auth_url "bitbucket.org/w/s" ("user" ++ ":" ++ "pass") "bitbucket")
        ["user" ++ ":" ++ "pass"]
      = "https://***@" ++ cleanTransportUrl "bitbucket.org/w/s" :=
  ⟨claim_C3_redact_splice.1 "github.com/o/r" "abc" (by decide) (by decide) (by decide)
      (by decide),
   claim_C3_redact_splice.2.1 "gitlab.com/g/p" "tok9" (by decide) (by decide) (by decide)
      (by decide),
   claim_C3_redact_splice.2.2 "bitbucket.org/w/s" "user" "pass" (by decide) (by decide)
      (by decide) (by decide) (by decide)⟩

/-! ## Lemmas about the orchestrator -/

lemma lookup_mem_keys {l : List (String × ResultVal)} {key : String} {v : ResultVal}
    (h : l.lookup key = some v) : key ∈ l.map Prod.fst := by
  induction l with
  | nil => simp [List.lookup] at h
  | cons kv rest ih =>
    obtain ⟨k, w⟩ := kv
    rw [List.lookup] at h
    cases hbeq : (key == k) with
    | true =>
      simp only [List.map_cons, List.mem_cons]
      exact Or.inl (eq_of_beq hbeq)
    | false =>
      rw [hbeq] at h
      simp only [List.map_cons, List.mem_cons]
      exact Or.inr (ih h)

lemma lookup_append_or (l1 l2 : List (String × ResultVal)) (k : String) :
    (l1 ++ l2).lookup k = (l1.lookup k).or (l2.lookup k) := by
  induction l1 with
  | nil => simp [List.lookup]
  | cons kv rest ih =>
    obtain ⟨k', w⟩ := kv
    rw [List.cons_append, List.lookup, List.lookup]
    cases hbeq : (k == k') with
    | true => rfl
    | false => exact ih

lemma seqPhase_ok {α β : Type} {a : List Ev × Except String α}
    {f : α → List Ev × Except String β} {b : β}
    (h : (seqPhase a f).2 = .ok b) : ∃ v, a.2 = .ok v ∧ (f v).2 = .ok b := by
  unfold seqPhase at h
  split at h
  · simp at h
  · rename_i v hv
    exact ⟨v, hv, h⟩

lemma pushStep_ok {git : GitEnv} {refspec key : String}
    {res out : List (String × ResultVal)}
    (h : (pushStep git refspec key res).2 = .ok out) :
    out = res ++ [(key, ResultVal.str "success")] := by
  unfold pushStep at h
  split at h
  · simp at h
  · dsimp only at h
    cases h
    rfl

lemma pushStepOpt_ok {git : GitEnv} {flag : Bool} {refspec key : String}
    {res0 out : List (String × ResultVal)}
    (h : ((if flag then pushStep git refspec key res0
            else (([] : List Ev), Except.ok res0)) : List Ev × Except String _).2
          = .ok out) :
    ∃ extra, out = res0 ++ extra ∧
      (flag = true → extra = [(key, ResultVal.str "success")]) ∧
      (flag = false → extra = []) := by
  split at h
  · rename_i hf
    exact ⟨[(key, .str "success")], pushStep_ok h, fun _ => rfl,
      fun hfe => by rw [hf] at hfe; cases hfe⟩
  · rename_i hf
    dsimp only at h
    cases h
    exact ⟨[], by simp, fun ht => absurd ht hf, fun _ => rfl⟩

lemma specStep_ok {git : GitEnv} {actions : MigrationActions}
    {res0 out : List (String × ResultVal)}
    (h : (specStep git actions res0).2 = .ok out) :
    ∃ extra, out = res0 ++ extra ∧
      ∀ key v, extra.lookup key = some v →
        key = "specific_branches" ∨ key = "specific_branches_missing" := by
  unfold specStep at h
  split at h
  · split at h
    · simp at h
    · rename_i evs pm hloop
      dsimp only at h
      cases h
      refine ⟨(if !pm.1.isEmpty
          then [("specific_branches", ResultVal.pushedBranches pm.1)] else [])
        ++ (if !pm.2.isEmpty
          then [("specific_branches_missing", ResultVal.missingBranches pm.2)] else []),
        ?_, ?_⟩
      · by_cases h1 : pm.1.isEmpty <;> simp [h1, List.append_assoc]
      · intro key v hkv
        have := lookup_mem_keys hkv
        by_cases h1 : pm.1.isEmpty <;> by_cases h2 : pm.2.isEmpty <;>
          simp [h1, h2] at this <;> tauto
  · dsimp only at h
    cases h
    exact ⟨[], by simp, by intro key v hkv; simp [List.lookup] at hkv⟩

lemma refPhase_ok {git : GitEnv} {actions : MigrationActions}
    {res : List (String × ResultVal)}
    (h : (refPhase git actions).2 = .ok res) :
    (actions.migrate_repo = true → res = [("repository", ResultVal.str "success")]) ∧
    (actions.migrate_repo = false →
      ∃ b s t k : List (String × ResultVal),
        res = b ++ s ++ t ++ k ∧
        (actions.migrate_branches = true → b = [("branches", ResultVal.str "success")]) ∧
        (actions.migrate_branches = false → b = []) ∧
        (∀ key v, s.lookup key = some v →
          key = "specific_branches" ∨ key = "specific_branches_missing") ∧
        (actions.migrate_tags = true → t = [("tags", ResultVal.str "success")]) ∧
        (actions.migrate_tags = false → t = []) ∧
        (∀ key v, k.lookup key = some v → key = "repository")) := by
  unfold refPhase at h
  split at h
  · rename_i hrepo
    have hout := pushStep_ok h
    refine ⟨fun _ => by simpa using hout, fun hf => by rw [hrepo] at hf; cases hf⟩
  · rename_i hrepo
    refine ⟨fun ht => absurd ht hrepo, fun _ => ?_⟩
    obtain ⟨r1, hb, h'⟩ := seqPhase_ok h
    obtain ⟨r2, hs, h''⟩ := seqPhase_ok h'
    obtain ⟨r3, htg, hfin⟩ := seqPhase_ok h''
    obtain ⟨b, hbv, hbt, hbf⟩ := pushStepOpt_ok hb
    obtain ⟨s, hsv, hsk⟩ := specStep_ok hs
    obtain ⟨t, htv, htt, htf⟩ := pushStepOpt_ok htg
    dsimp only at hfin
    refine ⟨b, s, t,
      (if !actions.migrate_branches && actions.specific_branches.isEmpty
          && !actions.migrate_tags
       then [("repository", ResultVal.str "skipped")] else []), ?_, hbt, hbf, hsk, htt, htf, ?_⟩
    · have hres : res = r3
          ++ (if !actions.migrate_branches && actions.specific_branches.isEmpty
              && !actions.migrate_tags
             then [("repository", ResultVal.str "skipped")] else []) := by
        cases hfin
        split <;> simp
      rw [hres, htv, hsv, hbv]
      simp [List.append_assoc]
    · intro key v hkv
      have := lookup_mem_keys hkv
      split at this <;> simp at this
      exact this

lemma metaStep_ok {flag : Bool} {key : String} {act : MRes MetaResult}
    {res out : List (String × ResultVal)}
    (h : (metaStep flag key act res).2 = .ok out) :
    ∃ extra, out = res ++ extra ∧
      (flag = true → ∃ m, extra = [(key, ResultVal.meta m)]) ∧
      (flag = false → extra = []) := by
  unfold metaStep at h
  split at h
  · rename_i hflag
    split at h
    · simp at h
    · rename_i m hm
      dsimp only at h
      cases h
      exact ⟨[(key, .meta m)], rfl, fun _ => ⟨m, rfl⟩,
        fun hf => by rw [hflag] at hf; cases hf⟩
  · rename_i hflag
    dsimp only at h
    cases h
    exact ⟨[], by simp, fun ht => absurd ht hflag, fun _ => rfl⟩

lemma metaPhase_ok {net : Net} {src dst : RepoContext} {actions : MigrationActions}
    {res0 out : List (String × ResultVal)}
    (h : (metaPhase net src dst actions res0).2 = .ok out) :
    ∃ i p u : List (String × ResultVal),
      out = res0 ++ i ++ p ++ u ∧
      (actions.migrate_issues = true → ∃ m, i = [("issues", ResultVal.meta m)]) ∧
      (actions.migrate_issues = false → i = []) ∧
      (actions.migrate_prs = true → ∃ m, p = [("prs", ResultVal.meta m)]) ∧
      (actions.migrate_prs = false → p = []) ∧
      (actions.migrate_users = true → ∃ m, u = [("users", ResultVal.meta m)]) ∧
      (actions.migrate_users = false → u = []) := by
  unfold metaPhase at h
  obtain ⟨r1, h1, h'⟩ := seqPhase_ok h
  obtain ⟨r2, h2, h3⟩ := seqPhase_ok h'
  obtain ⟨i, hi, hit, hif⟩ := metaStep_ok h1
  obtain ⟨p, hp, hpt, hpf⟩ := metaStep_ok h2
  obtain ⟨u, hu, hut, huf⟩ := metaStep_ok h3
  refine ⟨i, p, u, ?_, hit, hif, hpt, hpf, hut, huf⟩
  rw [hu, hp, hi]

lemma perform_migration_cases (req : MigrationRequest) (git : GitEnv) (net : Net) :
    (∃ e, perform_migration req git net = ⟨[], [processingUpdate], some e⟩) ∨
    (∃ evs m, perform_migration req git net
        = ⟨evs, [processingUpdate, failedUpdate m], none⟩) ∨
    (∃ evs srcCtx dstCtx res1 results,
      repo_context req.source_type req.source_token req.source_repo_url = .ok srcCtx ∧
      repo_context req.dest_type req.dest_token req.dest_repo_url = .ok dstCtx ∧
      (refPhase git req.actions).2 = .ok res1 ∧
      (metaPhase net srcCtx dstCtx req.actions res1).2 = .ok results ∧
      perform_migration req git net
        = ⟨evs, [processingUpdate, completedUpdate results], none⟩) := by
  unfold perform_migration
  cases hsrc : repo_context req.source_type req.source_token req.source_repo_url with
  | error e => exact Or.inl ⟨e, rfl⟩
  | ok srcCtx =>
    dsimp only
    cases hdst : repo_context req.dest_type req.dest_token req.dest_repo_url with
    | error e => exact Or.inl ⟨e, rfl⟩
    | ok dstCtx =>
      dsimp only
      cases hclone : git.clone with
      | error e =>
        exact Or.inr (Or.inl ⟨[Ev.clone],
          "Git command failed: " ++ redact_sensitive e [req.source_token, req.dest_token],
          rfl⟩)
      | ok uu =>
        dsimp only
        cases href : refPhase git req.actions with
        | mk evs rres =>
          cases rres with
          | error e =>
            exact Or.inr (Or.inl ⟨Ev.clone :: evs,
              "Git command failed: "
                ++ redact_sensitive e [req.source_token, req.dest_token], rfl⟩)
          | ok res1 =>
            dsimp only
            cases hmeta : metaPhase net srcCtx dstCtx req.actions res1 with
            | mk evs2 mres =>
              cases mres with
              | error e =>
                exact Or.inr (Or.inl ⟨Ev.clone :: (evs ++ evs2),
                  redact_sensitive e [req.source_token, req.dest_token], rfl⟩)
              | ok results =>
                exact Or.inr (Or.inr ⟨Ev.clone :: (evs ++ evs2), srcCtx, dstCtx,
                  res1, results, rfl, rfl, rfl, by rw [hmeta], rfl⟩)

/-- C8: after any orchestrator run that did not escape before the try
block, the record is terminal and `error` is non-null exactly when the
status is `failed`; an escaped run leaves the record non-terminal
(`processing`) with `error` null; and the record after a run is
independent of the prior record, so the last run of a periodic job alone
determines it — in particular a completed run after a failed one leaves
`error` null. -/
theorem claim_C8_error_iff_failed (req : MigrationRequest) (git : GitEnv) (net : Net)
    (prior prior' : JobState) :
    ((perform_migration req git net).escaped = none →
      ((finalJob prior (perform_migration req git net)).status = "completed" ∨
       (finalJob prior (perform_migration req git net)).status = "failed") ∧
      ((finalJob prior (perform_migration req git net)).status = "failed" ↔
        (finalJob prior (perform_migration req git net)).error ≠ none)) ∧
    ((perform_migration req git net).escaped ≠ none →
      (finalJob prior (perform_migration req git net)).status = "processing" ∧
      (finalJob prior (perform_migration req git net)).error = none) ∧
    finalJob prior (perform_migration req git net)
      = finalJob prior' (perform_migration req git net) := by
  rcases perform_migration_cases req git net with ⟨e, hpm⟩ | ⟨evs, m, hpm⟩ |
    ⟨evs, srcCtx, dstCtx, res1, results, _, _, _, _, hpm⟩ <;> rw [hpm]
  · exact ⟨fun hne => Option.noConfusion hne, fun _ => ⟨rfl, rfl⟩, rfl⟩
  · refine ⟨fun _ => ⟨Or.inr rfl, ?_⟩, fun hne => absurd rfl hne, rfl⟩
    exact ⟨fun _ hcon => Option.noConfusion hcon, fun _ => rfl⟩
  · refine ⟨fun _ => ⟨Or.inl rfl, ?_⟩, fun hne => absurd rfl hne, rfl⟩
    constructor
    · intro hc
      exact absurd (show ("completed" : String) = "failed" from hc) (by decide)
    · intro hc
      exact absurd rfl hc

/-- Witness for C8 at a concrete successful run. -/
theorem claim_C8_error_iff_failed_witness :
    (perform_migration sampleRequest gitAllOk netOffline).escaped = none ∧
    ((finalJob pendingJob (perform_migration sampleRequest gitAllOk netOffline)).status
        = "failed" ↔
      (finalJob pendingJob (perform_migration sampleRequest gitAllOk netOffline)).error
        ≠ none) := by
  have h := claim_C8_error_iff_failed sampleRequest gitAllOk netOffline pendingJob pendingJob
  exact ⟨by rfl, (h.1 (by rfl)).2⟩

/-- C1 counterexample: with the default actions (`migrate_repo`,
`migrate_branches` and `migrate_tags` all true) a run completes with a
single `repository` entry: there is no entry for the `migrate_branches` or
`migrate_tags` flags. -/
theorem claim_C1_counterexample :
    sampleRequest.actions.migrate_repo = true ∧
    sampleRequest.actions.migrate_branches = true ∧
    sampleRequest.actions.migrate_tags = true ∧
    (finalJob pendingJob (perform_migration sampleRequest gitAllOk netOffline)).status
      = "completed" ∧
    (finalJob pendingJob (perform_migration sampleRequest gitAllOk netOffline)).results.lookup
      "branches" = none ∧
    (finalJob pendingJob (perform_migration sampleRequest gitAllOk netOffline)).results.lookup
      "tags" = none := by
  exact ⟨rfl, rfl, rfl, by rfl, by rfl, by rfl⟩

/-- C1 (amended): a completed job's `results` has an entry for every true
metadata flag (`issues`, `prs`, `users`) and, when `migrate_repo` is
false, for `migrate_branches` and `migrate_tags`; when `migrate_repo` is
true the single `repository` entry subsumes branches and tags, and no
`branches`/`tags` entries are written. -/
theorem claim_C1_completed_results (req : MigrationRequest) (git : GitEnv) (net : Net)
    (prior : JobState)
    (h : (finalJob prior (perform_migration req git net)).status = "completed") :
    (req.actions.migrate_issues = true →
      ((finalJob prior (perform_migration req git net)).results.lookup "issues").isSome
        = true) ∧
    (req.actions.migrate_prs = true →
      ((finalJob prior (perform_migration req git net)).results.lookup "prs").isSome
        = true) ∧
    (req.actions.migrate_users = true →
      ((finalJob prior (perform_migration req git net)).results.lookup "users").isSome
        = true) ∧
    (req.actions.migrate_repo = true →
      ((finalJob prior (perform_migration req git net)).results.lookup "repository").isSome
        = true ∧
      (finalJob prior (perform_migration req git net)).results.lookup "branches" = none ∧
      (finalJob prior (perform_migration req git net)).results.lookup "tags" = none) ∧
    (req.actions.migrate_repo = false →
      (req.actions.migrate_branches = true →
        ((finalJob prior (perform_migration req git net)).results.lookup "branches").isSome
          = true) ∧
      (req.actions.migrate_tags = true →
        ((finalJob prior (perform_migration req git net)).results.lookup "tags").isSome
          = true)) := by
  rcases perform_migration_cases req git net with ⟨e, hpm⟩ | ⟨evs, m, hpm⟩ |
    ⟨evs, srcCtx, dstCtx, res1, results, _, _, href, hmeta, hpm⟩
  · rw [hpm] at h
    exact absurd (show ("processing" : String) = "completed" from h) (by decide)
  · rw [hpm] at h
    exact absurd (show ("failed" : String) = "completed" from h) (by decide)
  · have hres : (finalJob prior (perform_migration req git net)).results = results := by
      rw [hpm]
      rfl
    rw [hres] at *
    obtain ⟨hrepoT, hrepoF⟩ := refPhase_ok href
    obtain ⟨i, p, u, hout, hit, hif, hpt, hpf, hut, huf⟩ := metaPhase_ok hmeta
    have hiNone : ∀ key : String, key ≠ "issues" → i.lookup key = none := by
      intro key hk
      cases hfl : req.actions.migrate_issues with
      | true =>
        obtain ⟨m, rfl⟩ := hit hfl
        rw [List.lookup]
        rw [show (key == "issues") = false from beq_eq_false_iff_ne.mpr hk]
        rfl
      | false =>
        rw [hif hfl]
        rfl
    have hpNone : ∀ key : String, key ≠ "prs" → p.lookup key = none := by
      intro key hk
      cases hfl : req.actions.migrate_prs with
      | true =>
        obtain ⟨m, rfl⟩ := hpt hfl
        rw [List.lookup]
        rw [show (key == "prs") = false from beq_eq_false_iff_ne.mpr hk]
        rfl
      | false =>
        rw [hpf hfl]
        rfl
    have huNone : ∀ key : String, key ≠ "users" → u.lookup key = none := by
      intro key hk
      cases hfl : req.actions.migrate_users with
      | true =>
        obtain ⟨m, rfl⟩ := hut hfl
        rw [List.lookup]
        rw [show (key == "users") = false from beq_eq_false_iff_ne.mpr hk]
        rfl
      | false =>
        rw [huf hfl]
        rfl
    have hlookup : ∀ key : String, results.lookup key
        = (((res1.lookup key).or (i.lookup key)).or (p.lookup key)).or (u.lookup key) := by
      intro key
      rw [hout]
      rw [lookup_append_or, lookup_append_or, lookup_append_or]
    refine ⟨?_, ?_, ?_, ?_, ?_⟩
    · intro hfl
      obtain ⟨m, rfl⟩ := hit hfl
      rw [hlookup]
      simp [List.lookup]
    · intro hfl
      obtain ⟨m, rfl⟩ := hpt hfl
      rw [hlookup]
      simp [List.lookup]
    · intro hfl
      obtain ⟨m, rfl⟩ := hut hfl
      rw [hlookup]
      simp [List.lookup]
    · intro hfl
      have hr1 : res1 = [("repository", ResultVal.str "success")] := hrepoT hfl
      refine ⟨?_, ?_, ?_⟩
      · rw [hlookup, hr1]
        simp [List.lookup]
      · rw [hlookup, hr1, hiNone "branches" (by decide), hpNone "branches" (by decide),
          huNone "branches" (by decide)]
        rfl
      · rw [hlookup, hr1, hiNone "tags" (by decide), hpNone "tags" (by decide),
          huNone "tags" (by decide)]
        rfl
    · intro hfl
      obtain ⟨b, s, t, k, hr1, hbt, hbf, hsk, htt, htf, hkk⟩ := hrepoF hfl
      have hsNone : ∀ key : String, key ≠ "specific_branches" →
          key ≠ "specific_branches_missing" → s.lookup key = none := by
        intro key h1 h2
        cases hcase : s.lookup key with
        | none => rfl
        | some v =>
          rcases hsk key v hcase with hc | hc
          · exact absurd hc h1
          · exact absurd hc h2
      constructor
      · intro hbfl
        rw [hlookup, hr1, lookup_append_or, lookup_append_or, lookup_append_or,
          hbt hbfl]
        simp [List.lookup]
      · intro htfl
        have hbNone : b.lookup "tags" = none := by
          cases hbfl : req.actions.migrate_branches with
          | true => rw [hbt hbfl]; rfl
          | false => rw [hbf hbfl]; rfl
        rw [hlookup, hr1, lookup_append_or, lookup_append_or, lookup_append_or,
          hbNone, hsNone "tags" (by decide) (by decide), htt htfl]
        simp [List.lookup]

/-- Witness for C1 (amended) at a concrete completed run. -/
theorem claim_C1_completed_results_witness :
    (finalJob pendingJob (perform_migration sampleRequest gitAllOk netOffline)).status
      = "completed" ∧
    ((finalJob pendingJob
        (perform_migration sampleRequest gitAllOk netOffline)).results.lookup
      "repository").isSome = true := by
  have h := claim_C1_completed_results sampleRequest gitAllOk netOffline pendingJob (by rfl)
  exact ⟨by rfl, (h.2.2.2.1 rfl).1⟩

/-! ## C4: lazy URL-segment validation -/

lemma provider_api_base_github {c : RepoContext} (h : c.provider = "github") :
    ∃ b, provider_api_base c = .ok b := by
  unfold provider_api_base
  rw [h, if_pos rfl]
  by_cases hc : pyLower c.host = "github.com" ∨ pyLower c.host = "www.github.com"
  · rw [if_pos hc]; exact ⟨_, rfl⟩
  · rw [if_neg hc]; exact ⟨_, rfl⟩

lemma github_owner_short {c : RepoContext} (h : (pySplit c.path '/').length < 2) :
    c.github_owner = .error ("Invalid GitHub repository URL: " ++ c.repo_url) := by
  unfold RepoContext.github_owner
  rw [if_pos h]

lemma github_repo_path_short {c : RepoContext} (h : (pySplit c.path '/').length < 2) :
    c.github_repo_path = .error ("Invalid GitHub repository URL: " ++ c.repo_url) := by
  unfold RepoContext.github_repo_path
  rw [github_owner_short h]
  cases c.github_repo <;> rfl

lemma list_github_issues_short {net : Net} {c : RepoContext} (hprov : c.provider = "github")
    (h : (pySplit c.path '/').length < 2) :
    list_github_issues net c
      = ⟨[], .error ("Invalid GitHub repository URL: " ++ c.repo_url)⟩ := by
  obtain ⟨b, hb⟩ := provider_api_base_github hprov
  unfold list_github_issues
  rw [hb]
  dsimp only
  rw [github_repo_path_short h]

lemma migrate_issues_github_short {net : Net} {src dst : RepoContext}
    (hms : metadata_supported src dst = true) (hprov : src.provider = "github")
    (h : (pySplit src.path '/').length < 2) :
    migrate_issues net src dst
      = ⟨[], .error ("Invalid GitHub repository URL: " ++ src.repo_url)⟩ := by
  unfold migrate_issues
  rw [hms, if_pos rfl, hprov, if_pos rfl]
  rw [list_github_issues_short hprov h]
  rfl

lemma metaPhase_issues_error {net : Net} {src dst : RepoContext}
    {actions : MigrationActions} {res0 : List (String × ResultVal)} {e : String}
    (hmig : actions.migrate_issues = true)
    (hmi : migrate_issues net src dst = ⟨[], .error e⟩) :
    metaPhase net src dst actions res0 = ([], .error e) := by
  unfold metaPhase metaStep
  rw [hmig, hmi]
  rfl

lemma perform_migration_meta_error (req : MigrationRequest) (git : GitEnv) (net : Net)
    {srcCtx dstCtx : RepoContext} {res1 : List (String × ResultVal)} {e : String}
    (hsrc : repo_context req.source_type req.source_token req.source_repo_url = .ok srcCtx)
    (hdst : repo_context req.dest_type req.dest_token req.dest_repo_url = .ok dstCtx)
    (hclone : git.clone = .ok ())
    (href : (refPhase git req.actions).2 = .ok res1)
    (hmeta : (metaPhase net srcCtx dstCtx req.actions res1).2 = .error e) :
    Ev.clone ∈ (perform_migration req git net).events ∧
    (perform_migration req git net).updates
      = [processingUpdate,
          failedUpdate (redact_sensitive e [req.source_token, req.dest_token])] ∧
    (perform_migration req git net).escaped = none := by
  unfold perform_migration
  rw [hsrc]
  dsimp only
  rw [hdst]
  dsimp only
  rw [hclone]
  dsimp only
  cases hrp : refPhase git req.actions with
  | mk evs r2 =>
    rw [hrp] at href
    cases r2 with
    | error e' => exact Except.noConfusion href
    | ok v =>
      have h' : Except.ok v = Except.ok res1 := href
      injection h' with hv
      subst hv
      dsimp only
      cases hmp : metaPhase net srcCtx dstCtx req.actions v with
      | mk evs2 m2 =>
        rw [hmp] at hmeta
        cases m2 with
        | ok w => exact Except.noConfusion hmeta
        | error e' =>
          have h'' : Except.error e' = Except.error e := hmeta
          injection h'' with he
          subst he
          dsimp only
          exact ⟨List.mem_cons_self _ _, rfl, rfl⟩

lemma provider_api_base_bitbucket_org {c : RepoContext} (hprov : c.provider = "bitbucket")
    (hhost : pyLower c.host = "bitbucket.org") :
    provider_api_base c = .ok "https://api.bitbucket.org/2.0" := by
  unfold provider_api_base
  rw [hprov]
  rw [if_neg (by decide), if_neg (by decide), if_pos rfl, if_pos (Or.inl hhost)]

lemma bitbucket_workspace_short {c : RepoContext} (h : (pySplit c.path '/').length < 2) :
    c.bitbucket_workspace = .error ("Invalid Bitbucket repository URL: " ++ c.repo_url) := by
  unfold RepoContext.bitbucket_workspace
  rw [if_pos h]

lemma bitbucket_repo_path_short {c : RepoContext} (h : (pySplit c.path '/').length < 2) :
    c.bitbucket_repo_path = .error ("Invalid Bitbucket repository URL: " ++ c.repo_url) := by
  unfold RepoContext.bitbucket_repo_path
  rw [bitbucket_workspace_short h]
  cases c.bitbucket_repo_slug <;> rfl

lemma list_bitbucket_issues_short {net : Net} {c : RepoContext}
    (hprov : c.provider = "bitbucket") (hhost : pyLower c.host = "bitbucket.org")
    (h : (pySplit c.path '/').length < 2) :
    list_bitbucket_issues net c
      = ⟨[], .error ("Invalid Bitbucket repository URL: " ++ c.repo_url)⟩ := by
  unfold list_bitbucket_issues
  rw [provider_api_base_bitbucket_org hprov hhost]
  dsimp only
  rw [bitbucket_repo_path_short h]

lemma migrate_issues_bitbucket_short {net : Net} {src dst : RepoContext}
    (hms : metadata_supported src dst = true) (hprov : src.provider = "bitbucket")
    (hhost : pyLower src.host = "bitbucket.org") (h : (pySplit src.path '/').length < 2) :
    migrate_issues net src dst
      = ⟨[], .error ("Invalid Bitbucket repository URL: " ++ src.repo_url)⟩ := by
  unfold migrate_issues
  rw [hms, if_pos rfl, hprov, if_neg (by decide), if_neg (by decide)]
  rw [list_bitbucket_issues_short hprov hhost h]
  rfl

lemma list_bitbucket_users_swallow {net : Net} {c : RepoContext}
    (hprov : c.provider = "bitbucket") (hhost : pyLower c.host = "bitbucket.org")
    (h : (pySplit c.path '/').length < 2) :
    list_bitbucket_users net c = ⟨[], .ok []⟩ := by
  unfold list_bitbucket_users
  rw [provider_api_base_bitbucket_org hprov hhost]
  dsimp only
  rw [bitbucket_repo_path_short h]
  rfl

lemma migrate_users_swallow {net : Net} {src dst : RepoContext}
    (hms : metadata_supported src dst = true) (hprov : src.provider = "bitbucket")
    (hhost : pyLower src.host = "bitbucket.org") (h : (pySplit src.path '/').length < 2)
    (hdst : ¬dst.provider = "bitbucket") :
    migrate_users net src dst
      = ⟨[], .ok (.usersDone 0 0 0 [] [] usersNote)⟩ := by
  unfold migrate_users
  rw [hms, if_pos rfl, hprov, if_neg (by decide), if_neg (by decide)]
  rw [list_bitbucket_users_swallow hprov hhost h]
  unfold migrateUsersFinish
  dsimp only
  rw [if_neg hdst]
  rfl

lemma metaPhase_users_only {net : Net} {src dst : RepoContext} {actions : MigrationActions}
    {res0 : List (String × ResultVal)} {m : MetaResult}
    (hi : actions.migrate_issues = false) (hp : actions.migrate_prs = false)
    (hu : actions.migrate_users = true)
    (hmu : migrate_users net src dst = ⟨[], .ok m⟩) :
    metaPhase net src dst actions res0 = ([], .ok (res0 ++ [("users", .meta m)])) := by
  unfold metaPhase metaStep
  rw [hi, hp, hu, hmu]
  rfl

lemma perform_migration_meta_ok (req : MigrationRequest) (git : GitEnv) (net : Net)
    {srcCtx dstCtx : RepoContext} {res1 results : List (String × ResultVal)}
    (hsrc : repo_context req.source_type req.source_token req.source_repo_url = .ok srcCtx)
    (hdst : repo_context req.dest_type req.dest_token req.dest_repo_url = .ok dstCtx)
    (hclone : git.clone = .ok ())
    (href : (refPhase git req.actions).2 = .ok res1)
    (hmeta : (metaPhase net srcCtx dstCtx req.actions res1).2 = .ok results) :
    Ev.clone ∈ (perform_migration req git net).events ∧
    (perform_migration req git net).updates
      = [processingUpdate, completedUpdate results] ∧
    (perform_migration req git net).escaped = none := by
  unfold perform_migration
  rw [hsrc]
  dsimp only
  rw [hdst]
  dsimp only
  rw [hclone]
  dsimp only
  cases hrp : refPhase git req.actions with
  | mk evs r2 =>
    rw [hrp] at href
    cases r2 with
    | error e' => exact Except.noConfusion href
    | ok v =>
      have h' : Except.ok v = Except.ok res1 := href
      injection h' with hv
      subst hv
      dsimp only
      cases hmp : metaPhase net srcCtx dstCtx req.actions v with
      | mk evs2 m2 =>
        rw [hmp] at hmeta
        cases m2 with
        | error e' => exact Except.noConfusion hmeta
        | ok w =>
          have h'' : Except.ok w = Except.ok results := hmeta
          injection h'' with hw
          subst hw
          dsimp only
          exact ⟨List.mem_cons_self _ _, rfl, rfl⟩

/-- C4 counterexample: a GitHub source URL with a single meaningful path
segment builds its `RepoContext` without error, the run escapes nothing,
and both the clone and the mirror push happen before the run fails with
the `Invalid GitHub repository URL` message raised lazily by the metadata
phase. -/
theorem claim_C4_counterexample :
    repo_context "github" "tokS" "https://github.com/foo"
      = .ok ⟨"github", "tokS", "https://github.com/foo", "github.com", "foo"⟩ ∧
    (perform_migration sampleBadRequest gitAllOk netOffline).escaped = none ∧
    (perform_migration sampleBadRequest gitAllOk netOffline).events
      = [Ev.clone, Ev.push "--mirror migration_dest"] ∧
    (finalJob pendingJob (perform_migration sampleBadRequest gitAllOk netOffline)).status
      = "failed" ∧
    (finalJob pendingJob (perform_migration sampleBadRequest gitAllOk netOffline)).error
      = some "Invalid GitHub repository URL: https://github.com/foo" :=
  ⟨by rfl, by rfl, by rfl, by rfl, by rfl⟩

/-- C4 (amended): context construction checks only that the URL has a
network location, so the only failures before any network activity are the
escaping context errors (which leave the job `processing` with no events);
a GitHub or Bitbucket source path with fewer than two segments is detected
lazily, after the clone and the ref pushes, failing the job from the
metadata phase with the provider's `Invalid … repository URL` message —
and for a Bitbucket source whose only metadata action is user mapping the
error is swallowed by `safe_collect` and the job completes. -/
theorem claim_C4_lazy_url_validation (req : MigrationRequest) (git : GitEnv) (net : Net)
    (prior : JobState) :
    (∀ e, (perform_migration req git net).escaped = some e →
      (perform_migration req git net).events = [] ∧
      (finalJob prior (perform_migration req git net)).status = "processing") ∧
    (∀ srcCtx dstCtx res1,
      repo_context req.source_type req.source_token req.source_repo_url = .ok srcCtx →
      repo_context req.dest_type req.dest_token req.dest_repo_url = .ok dstCtx →
      git.clone = .ok () →
      (refPhase git req.actions).2 = .ok res1 →
      req.actions.migrate_issues = true →
      srcCtx.provider = "github" →
      (pySplit srcCtx.path '/').length < 2 →
      metadata_supported srcCtx dstCtx = true →
      Ev.clone ∈ (perform_migration req git net).events ∧
      (finalJob prior (perform_migration req git net)).status = "failed" ∧
      (finalJob prior (perform_migration req git net)).error
        = some (redact_sensitive ("Invalid GitHub repository URL: " ++ srcCtx.repo_url)
            [req.source_token, req.dest_token])) ∧
    (∀ srcCtx dstCtx res1,
      repo_context req.source_type req.source_token req.source_repo_url = .ok srcCtx →
      repo_context req.dest_type req.dest_token req.dest_repo_url = .ok dstCtx →
      git.clone = .ok () →
      (refPhase git req.actions).2 = .ok res1 →
      req.actions.migrate_issues = true →
      srcCtx.provider = "bitbucket" →
      pyLower srcCtx.host = "bitbucket.org" →
      (pySplit srcCtx.path '/').length < 2 →
      metadata_supported srcCtx dstCtx = true →
      Ev.clone ∈ (perform_migration req git net).events ∧
      (finalJob prior (perform_migration req git net)).status = "failed" ∧
      (finalJob prior (perform_migration req git net)).error
        = some (redact_sensitive ("Invalid Bitbucket repository URL: " ++ srcCtx.repo_url)
            [req.source_token, req.dest_token])) ∧
    (∀ srcCtx dstCtx res1,
      repo_context req.source_type req.source_token req.source_repo_url = .ok srcCtx →
      repo_context req.dest_type req.dest_token req.dest_repo_url = .ok dstCtx →
      git.clone = .ok () →
      (refPhase git req.actions).2 = .ok res1 →
      req.actions.migrate_issues = false →
      req.actions.migrate_prs = false →
      req.actions.migrate_users = true →
      srcCtx.provider = "bitbucket" →
      pyLower srcCtx.host = "bitbucket.org" →
      (pySplit srcCtx.path '/').length < 2 →
      metadata_supported srcCtx dstCtx = true →
      ¬dstCtx.provider = "bitbucket" →
      migrate_users net srcCtx dstCtx
        = ⟨[], .ok (.usersDone 0 0 0 [] [] usersNote)⟩ ∧
      (finalJob prior (perform_migration req git net)).status = "completed" ∧
      (finalJob prior (perform_migration req git net)).error = none) := by
  refine ⟨?_, ?_, ?_, ?_⟩
  · intro e he
    rcases perform_migration_cases req git net with ⟨e', hpm⟩ | ⟨evs, m, hpm⟩ |
      ⟨evs, s', d', r', res', _, _, _, _, hpm⟩
    · rw [hpm]
      exact ⟨rfl, rfl⟩
    · rw [hpm] at he
      exact Option.noConfusion he
    · rw [hpm] at he
      exact Option.noConfusion he
  · intro srcCtx dstCtx res1 hsrc hdst hclone href hmig hprov hlen hms
    have hmi : migrate_issues net srcCtx dstCtx
        = ⟨[], .error ("Invalid GitHub repository URL: " ++ srcCtx.repo_url)⟩ :=
      migrate_issues_github_short hms hprov hlen
    have hmp : metaPhase net srcCtx dstCtx req.actions res1
        = ([], .error ("Invalid GitHub repository URL: " ++ srcCtx.repo_url)) :=
      metaPhase_issues_error hmig hmi
    obtain ⟨hmem, hupd, _⟩ :=
      perform_migration_meta_error req git net hsrc hdst hclone href (by rw [hmp])
    refine ⟨hmem, ?_, ?_⟩
    · show (applyUpdates prior (perform_migration req git net).updates).status = "failed"
      rw [hupd]
      rfl
    · show (applyUpdates prior (perform_migration req git net).updates).error
        = some (redact_sensitive ("Invalid GitHub repository URL: " ++ srcCtx.repo_url)
            [req.source_token, req.dest_token])
      rw [hupd]
      rfl
  · intro srcCtx dstCtx res1 hsrc hdst hclone href hmig hprov hhost hlen hms
    have hmi : migrate_issues net srcCtx dstCtx
        = ⟨[], .error ("Invalid Bitbucket repository URL: " ++ srcCtx.repo_url)⟩ :=
      migrate_issues_bitbucket_short hms hprov hhost hlen
    have hmp : metaPhase net srcCtx dstCtx req.actions res1
        = ([], .error ("Invalid Bitbucket repository URL: " ++ srcCtx.repo_url)) :=
      metaPhase_issues_error hmig hmi
    obtain ⟨hmem, hupd, _⟩ :=
      perform_migration_meta_error req git net hsrc hdst hclone href (by rw [hmp])
    refine ⟨hmem, ?_, ?_⟩
    · show (applyUpdates prior (perform_migration req git net).updates).status = "failed"
      rw [hupd]
      rfl
    · show (applyUpdates prior (perform_migration req git net).updates).error
        = some (redact_sensitive ("Invalid Bitbucket repository URL: " ++ srcCtx.repo_url)
            [req.source_token, req.dest_token])
      rw [hupd]
      rfl
  · intro srcCtx dstCtx res1 hsrc hdst hclone href hi hp hu hprov hhost hlen hms hdprov
    have hmu : migrate_users net srcCtx dstCtx
        = ⟨[], .ok (.usersDone 0 0 0 [] [] usersNote)⟩ :=
      migrate_users_swallow hms hprov hhost hlen hdprov
    have hmp : metaPhase net srcCtx dstCtx req.actions res1
        = ([], .ok (res1 ++ [("users",
            .meta (.usersDone 0 0 0 [] [] usersNote))])) :=
      metaPhase_users_only hi hp hu hmu
    obtain ⟨_, hupd, _⟩ :=
      perform_migration_meta_ok req git net hsrc hdst hclone href (by rw [hmp])
    refine ⟨hmu, ?_, ?_⟩
    · show (applyUpdates prior (perform_migration req git net).updates).status = "completed"
      rw [hupd]
      rfl
    · show (applyUpdates prior (perform_migration req git net).updates).error = none
      rw [hupd]
      rfl

/-- Witness for C4 (amended) at three concrete short-path runs: the lazy
GitHub failure, the lazy Bitbucket failure, and the Bitbucket users-only
run whose swallowed error lets the job complete. -/
theorem claim_C4_lazy_url_validation_witness :
    Ev.clone ∈ (perform_migration sampleBadRequest gitAllOk netOffline).events ∧
    (finalJob pendingJob (perform_migration sampleBadRequest gitAllOk netOffline)).status
      = "failed" ∧
    (finalJob pendingJob (perform_migration sampleBadRequest gitAllOk netOffline)).error
      = some "Invalid GitHub repository URL: https://github.com/foo" ∧
    (finalJob pendingJob
        (perform_migration sampleBadBitbucketRequest gitAllOk netOffline)).status
      = "failed" ∧
    (finalJob pendingJob
        (perform_migration sampleBadBitbucketRequest gitAllOk netOffline)).error
      = some "Invalid Bitbucket repository URL: https://bitbucket.org/onlyws" ∧
    migrate_users netOffline
        ⟨"bitbucket", "u:p", "https://bitbucket.org/onlyws", "bitbucket.org", "onlyws"⟩
        ⟨"gitlab", "tokD", "https://gitlab.com/g/p", "gitlab.com", "g/p"⟩
      = ⟨[], .ok (.usersDone 0 0 0 [] [] usersNote)⟩ ∧
    (finalJob pendingJob
        (perform_migration sampleUsersOnlyRequest gitAllOk netOffline)).status
      = "completed" ∧
    (finalJob pendingJob
        (perform_migration sampleUsersOnlyRequest gitAllOk netOffline)).error = none := by
  have hb := (claim_C4_lazy_url_validation sampleBadRequest gitAllOk netOffline pendingJob).2.1
    ⟨"github", "tokS", "https://github.com/foo", "github.com", "foo"⟩
    ⟨"gitlab", "tokD", "https://gitlab.com/g/p", "gitlab.com", "g/p"⟩
    [("repository", ResultVal.str "success")]
    (by rfl) (by rfl) rfl (by rfl) rfl rfl (by decide) (by rfl)
  have hc := (claim_C4_lazy_url_validation sampleBadBitbucketRequest gitAllOk netOffline
      pendingJob).2.2.1
    ⟨"bitbucket", "u:p", "https://bitbucket.org/onlyws", "bitbucket.org", "onlyws"⟩
    ⟨"gitlab", "tokD", "https://gitlab.com/g/p", "gitlab.com", "g/p"⟩
    [("repository", ResultVal.str "success")]
    (by rfl) (by rfl) rfl (by rfl) rfl rfl (by rfl) (by decide) (by rfl)
  have hd := (claim_C4_lazy_url_validation sampleUsersOnlyRequest gitAllOk netOffline
      pendingJob).2.2.2
    ⟨"bitbucket", "u:p", "https://bitbucket.org/onlyws", "bitbucket.org", "onlyws"⟩
    ⟨"gitlab", "tokD", "https://gitlab.com/g/p", "gitlab.com", "g/p"⟩
    [("repository", ResultVal.str "success")]
    (by rfl) (by rfl) rfl (by rfl) rfl rfl rfl rfl (by rfl) (by decide) (by rfl) (by decide)
  exact ⟨hb.1, hb.2.1, hb.2.2.trans (by rfl), hc.2.1, hc.2.2.trans (by rfl),
    hd.1, hd.2.1, hd.2.2⟩

end GitMigrator
